import Mathlib

set_option autoImplicit false

/-!
Verification of the tool-call aggregation and pagination engine of the
`nest-ai` repository, as implemented in `src/mcp-server/stdio-server.js`.

That file contains two server variants:
* the stdio SDK server (lines 1-1874), referred to here with suffix `1`;
* the HTTP express server (lines 1875-3478), referred to with suffix `2`.

The upstream HTTP client (`nestClient.*.list*`, `axios.get`) is modelled as a
function parameter `fetch : Nat → Nat → Except String (… response …)` taking a
page number and a page size, returning either the parsed response or a
transport/parse failure message.  JavaScript truthiness of the optional
response fields (`x || y` picks `y` when `x` is `undefined`, `null`, `''`, `0`
or `false`) is made explicit by the `jsOr*` helpers below.  Constant metadata
annotation fields of the source (`source: 'real_api_pagination'`, the
`repository` tag string) carry no information and are not represented.
-/

/-- JavaScript `x || d` for an optional string `x`: the fallback `d` is used
when `x` is `undefined`/`null` or the empty string (both falsy). -/
def jsOrStrS (s d : String) : String :=
  if s = "" then d else s

/-- JavaScript `x || d` where `x : string | undefined`. -/
def jsOrStr (o : Option String) (d : String) : String :=
  match o with
  | none => d
  | some s => jsOrStrS s d

/-- JavaScript `x || undefined` for a string field: `''` is falsy, so an empty
string also collapses to `undefined` (modelled as `none`). -/
def jsOrUndef (o : Option String) : Option String :=
  match o with
  | none => none
  | some s => if s = "" then none else some s

/-- JavaScript `x || d` for an optional number `x`: `0` is falsy. -/
def jsOrNat (o : Option Nat) (d : Nat) : Nat :=
  match o with
  | none => d
  | some n => if n = 0 then d else n

/-- JavaScript truthiness of an optional boolean (`x || false`). -/
def jsTruthy (o : Option Bool) : Bool :=
  o.getD false

/-- JavaScript `!x` for an optional string argument: true when the argument is
`undefined` or the empty string. -/
def jsFalsyStr (o : Option String) : Bool :=
  match o with
  | none => true
  | some s => s = ""

/-- JavaScript template-literal interpolation of a possibly-`undefined`
string: `undefined` prints as the literal text `"undefined"`. -/
def jsInterp (o : Option String) : String :=
  match o with
  | none => "undefined"
  | some s => s

/-- JavaScript `Math.ceil(a / b)` on non-negative integers (for `b = 0` the
JS loop guard `page <= NaN` runs zero iterations, matching the value `0`). -/
def jsCeilDiv (a b : Nat) : Nat :=
  (a + b - 1) / b

/-- Replace every maximal run of characters satisfying `p` by the single
character `rep` (the JS regex replaces `/\s+/g`-style runs). -/
def collapseRuns (p : Char → Bool) (rep : Char) : Bool → List Char → List Char
  | _, [] => []
  | prevRun, c :: cs =>
    if p c then
      if prevRun then collapseRuns p rep true cs
      else rep :: collapseRuns p rep true cs
    else c :: collapseRuns p rep false cs

/-- JS `str.toLowerCase().replace(/\s+/g, '-')`, used to derive URL slugs
from display names. -/
def slugify (s : String) : String :=
  ⟨collapseRuns Char.isWhitespace '-' false s.toLower.data⟩

/-- JS `str.replace(/\s+/g, ' ')`. -/
def collapseWsToSpace (s : String) : String :=
  ⟨collapseRuns Char.isWhitespace ' ' false s.data⟩

/-- JS `str.replace(/\n+/g, '\n')`. -/
def collapseNl (s : String) : String :=
  ⟨collapseRuns (fun c => c = '\n') '\n' false s.data⟩

/-- JS `str.substring(0, n)`. -/
def jsSubstring (s : String) (n : Nat) : String :=
  ⟨s.data.take n⟩

/-- Insertion-ordered deduplication, i.e. JS `[...new Set(l)]`. -/
def dedupKeepFirstAux (seen : List String) : List String → List String
  | [] => []
  | x :: xs =>
    if x ∈ seen then dedupKeepFirstAux seen xs
    else x :: dedupKeepFirstAux (x :: seen) xs

/-- JS `[...new Set(l)]`: first occurrence of each element is kept. -/
def dedupKeepFirst (l : List String) : List String :=
  dedupKeepFirstAux [] l

/-- JS list prefix test on character lists (`String.prototype.startsWith`). -/
def listStarts : List Char → List Char → Bool
  | [], _ => true
  | _ :: _, [] => false
  | a :: ps, b :: cs => a = b && listStarts ps cs

/-- JS substring containment helper for `String.prototype.includes`. -/
def listHasSub (pat : List Char) : List Char → Bool
  | [] => listStarts pat []
  | c :: cs => listStarts pat (c :: cs) || listHasSub pat cs

/-- JS `s.includes(pat)`. -/
def strIncludes (s pat : String) : Bool :=
  listHasSub pat.data s.data

/-- JS `s.startsWith(pat)`. -/
def strStarts (s pat : String) : Bool :=
  listStarts pat.data s.data

/-! ## Upstream response shapes

The HTTP-variant handlers (and the stdio committees/milestones/releases/…
handlers) read `response.items`, `response.totalCount` and `response.hasNext`.
The stdio projects/events/issues/contributors/chapters handlers read
`response.items || response.data`, `response.total`, `response.hasMore` and
`response.next`. -/

/-- Response shape with `items` / `totalCount` / `hasNext` fields. -/
structure NestResp (ρ : Type) where
  items : Option (List ρ)
  totalCount : Option Nat
  hasNext : Option Bool
deriving DecidableEq

/-- JS `response.items || []` (a present-but-empty array is truthy in JS). -/
def itemsOfNest {ρ : Type} (r : NestResp ρ) : List ρ :=
  r.items.getD []

/-- Response shape with `items` / `data` / `total` / `hasMore` / `next`
fields, as read by the stdio contributors handler.  The `next` field is only
ever tested for truthiness (`response.next ? true : false`), so it is kept as
a `Bool`. -/
structure SdkResp (ρ : Type) where
  items : Option (List ρ)
  data : Option (List ρ)
  total : Option Nat
  hasMore : Option Bool
  next : Bool
deriving DecidableEq

/-- JS `response.items || response.data || []`. -/
def itemsOfSdk {ρ : Type} (r : SdkResp ρ) : List ρ :=
  r.items.getD (r.data.getD [])

/-- One paginated upstream call of the HTTP variant:
`fetch page pageSize` either fails or returns a parsed response. -/
def Fetcher (ρ : Type) : Type :=
  Nat → Nat → Except String (NestResp ρ)

/-- One paginated upstream call of the stdio contributors handler. -/
def Fetcher1 (ρ : Type) : Type :=
  Nat → Nat → Except String (SdkResp ρ)

/-- Map a normalizer over the items of a response. -/
def mapResp {ρ α : Type} (f : ρ → α) (r : NestResp ρ) : NestResp α :=
  { items := r.items.map (List.map f), totalCount := r.totalCount, hasNext := r.hasNext }

/-- Precompose a fetcher with per-item normalization. -/
def mapFetcher {ρ α : Type} (f : ρ → α) (fetch : Fetcher ρ) : Fetcher α :=
  fun page size => (fetch page size).map (mapResp f)

/-! ## Raw upstream records and normalizers

One structure per resource type, holding exactly the source fields the
normalizer in `stdio-server.js` probes; every field is optional because the
upstream shape is uninterpreted.  The normalizers are line-by-line
translations of the `.map((x) => ({...}))` bodies. -/

structure RawProject where
  name : Option String
  key : Option String
  description : Option String
  summary : Option String
  url : Option String
  level : Option String
  type : Option String
  leaders : Option (List String)
deriving DecidableEq

structure ProjectRec where
  name : String
  key : String
  description : String
  url : String
  level : String
  type : String
  leaders : List String
deriving DecidableEq

/-- Normalizer of `handleGetProjects` (identical in both variants); `typeArg`
is the tool's `type` argument, used as a fallback for the record's type. -/
def normalizeProject (typeArg : Option String) (p : RawProject) : ProjectRec :=
  { name := jsOrStr p.name "Unknown Project"
  , key := jsOrStr p.key (slugify (jsOrStr p.name ""))
  , description := jsOrStr p.description (jsOrStr p.summary "No description available")
  , url := jsOrStr p.url
      ("https://owasp.org/www-project-" ++ slugify (jsOrStr p.key (jsOrStr p.name "")) ++ "/")
  , level := jsOrStr p.level "unknown"
  , type := jsOrStr p.type (jsOrStr typeArg "general")
  , leaders := p.leaders.getD [] }

structure RawEvent1 where
  name : Option String
  title : Option String
  description : Option String
  summary : Option String
  startDate : Option String
  date : Option String
  location : Option String
  url : Option String
deriving DecidableEq

structure EventRec1 where
  name : String
  description : String
  date : String
  location : String
  url : String
deriving DecidableEq

/-- Normalizer of the stdio `handleGetEvents`. -/
def normalizeEvent1 (e : RawEvent1) : EventRec1 :=
  { name := jsOrStr e.name (jsOrStr e.title "OWASP Event")
  , description := jsOrStr e.description (jsOrStr e.summary "No description available")
  , date := jsOrStr e.startDate (jsOrStr e.date "TBD")
  , location := jsOrStr e.location "Virtual"
  , url := jsOrStr e.url "https://owasp.org/events" }

/-- Raw HTTP-variant event (`/api/v0/events/` fields use snake case; the
Lean fields `startDate`/`endDate` stand for `start_date`/`end_date`). -/
structure RawEvent2 where
  name : Option String
  description : Option String
  startDate : Option String
  endDate : Option String
  location : Option String
  url : Option String
  key : Option String
deriving DecidableEq

structure EventRec2 where
  name : String
  description : String
  date : String
  location : String
  url : String
  key : Option String
deriving DecidableEq

/-- Normalizer of the HTTP-variant `handleGetEvents`; note that `key` is
copied through unconditionally (`key: e.key`) and so can be `undefined`. -/
def normalizeEvent2 (e : RawEvent2) : EventRec2 :=
  { name := jsOrStr e.name "OWASP Event"
  , description := jsOrStr e.description "No description available"
  , date := jsOrStr e.startDate (jsOrStr e.endDate "TBD")
  , location := jsOrStr e.location "Virtual"
  , url := jsOrStr e.url "https://owasp.org/events"
  , key := e.key }

structure RawIssue where
  title : Option String
  project : Option String
  priority : Option String
  labels : Option (List String)
  url : Option String
  htmlUrl : Option String
  createdAt : Option String
deriving DecidableEq

structure IssueRec where
  title : String
  project : String
  priority : String
  labels : List String
  url : String
  created : Option String
deriving DecidableEq

/-- Normalizer of `handleGetIssues` (identical in both variants); note
`created: i.createdAt || undefined` leaves the field absent when the source
field is missing or empty. -/
def normalizeIssue (priorityArg projectArg : Option String) (i : RawIssue) : IssueRec :=
  { title := jsOrStr i.title "Untitled Issue"
  , project := jsOrStr i.project (jsOrStr projectArg "OWASP Project")
  , priority := jsOrStr i.priority (jsOrStr priorityArg "medium")
  , labels := i.labels.getD []
  , url := jsOrStr i.url (jsOrStr i.htmlUrl "https://github.com/OWASP")
  , created := jsOrUndef i.createdAt }

structure RawContributor where
  name : Option String
  login : Option String
  avatarUrl : Option String
  contributions : Option Nat
  projects : Option (List String)
  url : Option String
  githubUrl : Option String
  createdAt : Option String
  updatedAt : Option String
deriving DecidableEq

structure ContributorRec1 where
  name : String
  contributions : Nat
  projects : List String
  url : String
deriving DecidableEq

/-- Normalizer of the stdio `handleGetContributors`. -/
def normalizeContributor1 (c : RawContributor) : ContributorRec1 :=
  { name := jsOrStr c.name (jsOrStr c.login "Anonymous")
  , contributions := c.contributions.getD 0
  , projects := c.projects.getD []
  , url := jsOrStr c.url (jsOrStr c.githubUrl "https://github.com") }

structure ContributorRec2 where
  name : String
  login : String
  avatarUrl : String
  url : String
  joinedDate : String
  lastActive : String
  contributions : Nat
  projects : List String
  createdAt : String
  updatedAt : String
deriving DecidableEq

/-- Normalizer of the HTTP-variant `handleGetContributors`.  The JS code
formats `createdAt`/`updatedAt` with `new Date(...).toLocaleDateString`; the
date-formatting collaborator is passed in as `fmt`. -/
def normalizeContributor2 (fmt : String → String) (c : RawContributor) : ContributorRec2 :=
  { name := jsOrStr c.name (jsOrStr c.login "Anonymous")
  , login := jsOrStr c.login ""
  , avatarUrl := jsOrStr c.avatarUrl ""
  , url := jsOrStr c.url (jsOrStr c.githubUrl "https://github.com")
  , joinedDate := match c.createdAt with
      | none => ""
      | some s => if s = "" then "" else fmt s
  , lastActive := match c.updatedAt with
      | none => ""
      | some s => if s = "" then "" else fmt s
  , contributions := c.contributions.getD 0
  , projects := c.projects.getD []
  , createdAt := jsOrStr c.createdAt ""
  , updatedAt := jsOrStr c.updatedAt "" }

structure RawChapter where
  name : Option String
  location : Option String
  country : Option String
  region : Option String
  meetingFrequency : Option String
  url : Option String
  key : Option String
deriving DecidableEq

structure ChapterRec where
  name : String
  location : String
  meetingFrequency : Option String
  url : String
deriving DecidableEq

/-- Normalizer of `handleGetChapters` (identical in both variants); note
`meetingFrequency: ch.meetingFrequency || undefined` leaves the field absent
when the source field is missing or empty. -/
def normalizeChapter (ch : RawChapter) : ChapterRec :=
  { name := jsOrStr ch.name "OWASP Chapter"
  , location := jsOrStr ch.location (jsOrStr ch.country (jsOrStr ch.region "Unknown"))
  , meetingFrequency := jsOrUndef ch.meetingFrequency
  , url := jsOrStr ch.url
      ("https://owasp.org/www-chapter-" ++ slugify (jsOrStr ch.key (jsOrStr ch.name "")) ++ "/") }

structure RawCommittee where
  name : Option String
  description : Option String
  url : Option String
  key : Option String
  leaders : Option (List String)
deriving DecidableEq

structure CommitteeRec where
  name : String
  description : String
  url : String
  key : String
  leaders : List String
deriving DecidableEq

/-- Normalizer of `handleGetCommittees` (identical in both variants). -/
def normalizeCommittee (c : RawCommittee) : CommitteeRec :=
  { name := jsOrStr c.name "OWASP Committee"
  , description := jsOrStr c.description "No description available"
  , url := jsOrStr c.url "https://owasp.org"
  , key := jsOrStr c.key (slugify (jsOrStr c.name ""))
  , leaders := c.leaders.getD [] }

structure RawMilestone where
  title : Option String
  description : Option String
  state : Option String
  number : Option Nat
  openIssues : Option Nat
  closedIssues : Option Nat
  dueOn : Option String
  htmlUrl : Option String
  url : Option String
deriving DecidableEq

structure MilestoneRec where
  title : String
  description : String
  state : String
  number : Nat
  openIssues : Nat
  closedIssues : Nat
  dueDate : String
  url : String
deriving DecidableEq

/-- Normalizer of `handleGetMilestones` (identical in both variants); the URL
fallback interpolates the caller-supplied organization and repository. -/
def normalizeMilestone (organization repository : String) (m : RawMilestone) : MilestoneRec :=
  { title := jsOrStr m.title "Milestone"
  , description := jsOrStr m.description ""
  , state := jsOrStr m.state "open"
  , number := m.number.getD 0
  , openIssues := m.openIssues.getD 0
  , closedIssues := m.closedIssues.getD 0
  , dueDate := jsOrStr m.dueOn ""
  , url := jsOrStr m.htmlUrl (jsOrStr m.url
      ("https://github.com/" ++ organization ++ "/" ++ repository ++ "/milestones")) }

structure RawRelease where
  name : Option String
  tagName : Option String
  body : Option String
  publishedAt : Option String
  authorLogin : Option String
  htmlUrl : Option String
  url : Option String
  prerelease : Option Bool
  draft : Option Bool
deriving DecidableEq

structure ReleaseRec where
  name : String
  tagName : String
  description : String
  publishedAt : String
  author : String
  url : String
  isPrerelease : Bool
  isDraft : Bool
deriving DecidableEq

/-- Normalizer of `handleGetReleases` (identical in both variants);
`authorLogin` models the JS optional chain `r.author?.login`. -/
def normalizeRelease (organization repository : String) (r : RawRelease) : ReleaseRec :=
  { name := jsOrStr r.name (jsOrStr r.tagName "Release")
  , tagName := jsOrStr r.tagName ""
  , description := jsOrStr r.body ""
  , publishedAt := jsOrStr r.publishedAt ""
  , author := jsOrStr r.authorLogin "Unknown"
  , url := jsOrStr r.htmlUrl (jsOrStr r.url
      ("https://github.com/" ++ organization ++ "/" ++ repository ++ "/releases"))
  , isPrerelease := jsTruthy r.prerelease
  , isDraft := jsTruthy r.draft }

structure RawRepository where
  name : Option String
  fullName : Option String
  description : Option String
  htmlUrl : Option String
  url : Option String
  stargazersCount : Option Nat
  forksCount : Option Nat
  language : Option String
  topics : Option (List String)
  archived : Option Bool
  updatedAt : Option String
deriving DecidableEq

structure RepositoryRec where
  name : String
  fullName : String
  description : String
  url : String
  stars : Nat
  forks : Nat
  language : String
  topics : List String
  isArchived : Bool
  updatedAt : String
deriving DecidableEq

/-- Normalizer of `handleGetRepositories` (identical in both variants); the
template fallbacks interpolate `r.name` raw, so a missing name prints as the
JS text `undefined`. -/
def normalizeRepository (organization : String) (r : RawRepository) : RepositoryRec :=
  { name := jsOrStr r.name "Repository"
  , fullName := jsOrStr r.fullName (organization ++ "/" ++ jsInterp r.name)
  , description := jsOrStr r.description "No description available"
  , url := jsOrStr r.htmlUrl (jsOrStr r.url
      ("https://github.com/" ++ organization ++ "/" ++ jsInterp r.name))
  , stars := r.stargazersCount.getD 0
  , forks := r.forksCount.getD 0
  , language := jsOrStr r.language "Unknown"
  , topics := r.topics.getD []
  , isArchived := jsTruthy r.archived
  , updatedAt := jsOrStr r.updatedAt "" }

structure RawSponsor where
  name : Option String
  description : Option String
  url : Option String
  logo : Option String
  logoUrl : Option String
  tier : Option String
  level : Option String
  joinedDate : Option String
  createdAt : Option String
deriving DecidableEq

structure SponsorRec where
  name : String
  description : String
  url : String
  logo : String
  tier : String
  joinedDate : String
deriving DecidableEq

/-- Normalizer of `handleGetSponsors` (identical in both variants). -/
def normalizeSponsor (s : RawSponsor) : SponsorRec :=
  { name := jsOrStr s.name "Sponsor"
  , description := jsOrStr s.description ""
  , url := jsOrStr s.url "https://owasp.org"
  , logo := jsOrStr s.logo (jsOrStr s.logoUrl "")
  , tier := jsOrStr s.tier (jsOrStr s.level "supporter")
  , joinedDate := jsOrStr s.joinedDate (jsOrStr s.createdAt "") }

/-! ## HTTP-variant aggregation loop

Faithful embedding of the shared loop shape of the HTTP-variant handlers
(`for (let page = 1; page <= totalPages; page++) { ... }`).  The running
state also records the sequence of upstream calls actually issued, so that
claims about "no further page is requested" and "no network I/O" can be
stated; `requestsMade` is the handler's own counter (incremented only after
a call returns successfully, exactly as in the source). -/

structure LoopState (α : Type) where
  collected : List α
  totalCount : Nat
  hasNext : Bool
  requestsMade : Nat
  calls : List (Nat × Nat)
deriving DecidableEq

/-- Result of running the page loop: the final state, plus the failure
message when the loop was exited by a thrown upstream error. -/
structure RunOutcome (α : Type) where
  state : LoopState α
  failed : Option String
deriving DecidableEq

/-- One-page body plus recursion of the HTTP-variant loop.  Arguments after
the limit/page-size configuration: current page number, remaining page budget
(`totalPages` counts down), running state. -/
def httpLoopGo {α : Type} (fetch : Fetcher α) (limit ps : Nat) :
    Nat → Nat → LoopState α → RunOutcome α
  | _, 0, st => ⟨st, none⟩
  | page, fuel + 1, st =>
    let cps := min ps (limit - st.collected.length)
    let st' := { st with calls := st.calls ++ [(page, cps)] }
    match fetch page cps with
    | .error e => ⟨st', some e⟩
    | .ok resp =>
      let st'' : LoopState α :=
        { collected := st'.collected ++ itemsOfNest resp
        , totalCount := jsOrNat resp.totalCount st'.totalCount
        , hasNext := jsTruthy resp.hasNext
        , requestsMade := st'.requestsMade + 1
        , calls := st'.calls }
      if limit ≤ st''.collected.length then ⟨st'', none⟩
      else if st''.hasNext then httpLoopGo fetch limit ps (page + 1) fuel st''
      else ⟨st'', none⟩

/-- The HTTP-variant page loop: `pageSize = Math.min(limit, 100)`,
`totalPages = Math.ceil(limit / pageSize)`, pages starting at 1. -/
def httpRun {α : Type} (fetch : Fetcher α) (limit : Nat) : RunOutcome α :=
  let ps := min limit 100
  httpLoopGo fetch limit ps 1 (jsCeilDiv limit ps) ⟨[], 0, false, 0, []⟩

/-- The `metadata` object of the HTTP-variant result envelopes. -/
structure Metadata where
  requested : Nat
  returned : Nat
  totalAvailable : Nat
  hasMore : Bool
  requestsMade : Nat
  error : Option String
deriving DecidableEq

/-- The uniform `{ items, metadata }` envelope of the HTTP-variant handlers. -/
structure Envelope (α : Type) where
  items : List α
  metadata : Metadata
deriving DecidableEq

/-- Success envelope: `finalX = allX.slice(0, limit)` and the metadata
formulas shared by every HTTP-variant handler. -/
def mkOkEnvelope {α : Type} (limit : Nat) (st : LoopState α) : Envelope α :=
  let finalItems := st.collected.take limit
  { items := finalItems
  , metadata :=
    { requested := limit
    , returned := finalItems.length
    , totalAvailable := st.totalCount
    , hasMore := st.hasNext && decide (finalItems.length < st.totalCount)
    , requestsMade := st.requestsMade
    , error := none } }

/-- Error envelope returned by the HTTP-variant handlers whose `catch` block
swallows the failure (issues, committees, milestones, releases, repositories,
sponsors, events): empty items, zeroed counters, `error` populated. -/
def errEnvelope {α : Type} (limit : Nat) (msg : String) : Envelope α :=
  { items := []
  , metadata :=
    { requested := limit, returned := 0, totalAvailable := 0
    , hasMore := false, requestsMade := 0, error := some msg } }

/-- HTTP-variant `handleGetProjects`: aggregation loop; its `catch` block
re-throws the upstream failure (`throw error`). -/
def handleGetProjects2 (fetch : Fetcher RawProject) (typeArg : Option String)
    (limit : Nat) : Except String (Envelope ProjectRec) :=
  let r := httpRun (mapFetcher (normalizeProject typeArg) fetch) limit
  match r.failed with
  | some e => .error e
  | none => .ok (mkOkEnvelope limit r.state)

/-- The page loop of the HTTP-variant `handleGetChapters` (exposed so that
theorems can talk about the calls it issues). -/
def handleGetChapters2Run (fetch : Fetcher RawChapter) (limit : Nat) :
    RunOutcome ChapterRec :=
  httpRun (mapFetcher normalizeChapter fetch) limit

/-- HTTP-variant `handleGetChapters`: like projects, its `catch` block
re-throws the upstream failure. -/
def handleGetChapters2 (fetch : Fetcher RawChapter) (limit : Nat) :
    Except String (Envelope ChapterRec) :=
  let r := handleGetChapters2Run fetch limit
  match r.failed with
  | some e => .error e
  | none => .ok (mkOkEnvelope limit r.state)

/-- HTTP-variant `handleGetIssues`: aggregation loop; its `catch` block
returns an empty envelope with `metadata.error` set. -/
def handleGetIssues2 (fetch : Fetcher RawIssue) (priorityArg projectArg : Option String)
    (limit : Nat) : Envelope IssueRec :=
  let r := httpRun (mapFetcher (normalizeIssue priorityArg projectArg) fetch) limit
  match r.failed with
  | some e => errEnvelope limit e
  | none => mkOkEnvelope limit r.state

/-- The page loop of the HTTP-variant `handleGetContributors`. -/
def handleGetContributors2Run (fmt : String → String)
    (fetch : Fetcher RawContributor) (limit : Nat) : RunOutcome ContributorRec2 :=
  httpRun (mapFetcher (normalizeContributor2 fmt) fetch) limit

/-- HTTP-variant `handleGetContributors`: its per-page `try/catch` turns an
upstream failure into a `break`, so the envelope is always built from the
items collected before the failure, and `metadata.error` is never set on
this path (the outer `catch` is unreachable: every throwing operation sits
inside the inner `try`). -/
def handleGetContributors2 (fmt : String → String)
    (fetch : Fetcher RawContributor) (limit : Nat) : Envelope ContributorRec2 :=
  mkOkEnvelope limit (handleGetContributors2Run fmt fetch limit).state

/-- HTTP-variant `handleGetCommittees`: loop plus error-swallowing `catch`. -/
def handleGetCommittees2 (fetch : Fetcher RawCommittee) (limit : Nat) :
    Envelope CommitteeRec :=
  let r := httpRun (mapFetcher normalizeCommittee fetch) limit
  match r.failed with
  | some e => errEnvelope limit e
  | none => mkOkEnvelope limit r.state

/-- HTTP-variant `handleGetMilestones`: rejects a missing (or empty, both
falsy) `repository` argument by throwing before any upstream call; otherwise
runs the loop with an error-swallowing `catch`.  `orgArg` defaults to
`'OWASP'` exactly as the JS parameter default does. -/
def handleGetMilestones2 (fetch : Fetcher RawMilestone)
    (orgArg repoArg : Option String) (limit : Nat) :
    Except String (Envelope MilestoneRec) :=
  let organization := orgArg.getD "OWASP"
  if jsFalsyStr repoArg then .error "repository parameter is required"
  else
    let repository := repoArg.getD ""
    let r := httpRun (mapFetcher (normalizeMilestone organization repository) fetch) limit
    match r.failed with
    | some e => .ok (errEnvelope limit e)
    | none => .ok (mkOkEnvelope limit r.state)

/-- HTTP-variant `handleGetReleases`: same guard and loop as milestones. -/
def handleGetReleases2 (fetch : Fetcher RawRelease)
    (orgArg repoArg : Option String) (limit : Nat) :
    Except String (Envelope ReleaseRec) :=
  let organization := orgArg.getD "OWASP"
  if jsFalsyStr repoArg then .error "repository parameter is required"
  else
    let repository := repoArg.getD ""
    let r := httpRun (mapFetcher (normalizeRelease organization repository) fetch) limit
    match r.failed with
    | some e => .ok (errEnvelope limit e)
    | none => .ok (mkOkEnvelope limit r.state)

/-! ## Stdio-variant contributors aggregation (the deduplicating loop)

`handleGetContributors` of the stdio server: single request when
`limit <= 50`, otherwise up to `Math.ceil(limit / 50)` requests whose results
are inserted into a `Map` keyed by the record's canonical `url` (first
occurrence wins).  The `Map`'s insertion-ordered values are modelled as a
list with guarded append. -/

/-- JS `if (!uniqueContributors.has(c.url)) uniqueContributors.set(c.url, c)`. -/
def dedupInsert (acc : List ContributorRec1) (c : ContributorRec1) : List ContributorRec1 :=
  if acc.any (fun x => x.url = c.url) then acc else acc ++ [c]

/-- Insert a page of normalized contributors into the dedup map. -/
def dedupFold (acc : List ContributorRec1) (cs : List ContributorRec1) : List ContributorRec1 :=
  cs.foldl dedupInsert acc

/-- State of the stdio contributors multi-request loop. -/
structure LoopState1 where
  unique : List ContributorRec1
  requestsMade : Nat
  calls : List (Nat × Nat)
deriving DecidableEq

/-- The `for (let i = 0; i < numRequests; i++)` loop of the stdio
contributors handler.  `requestsMade` is incremented only after a successful
response; a failed request breaks the loop (per-request `try/catch`), as do
an empty page, reaching `limit` unique records, or a short page. -/
def contribLoop1 (fetch : Fetcher1 RawContributor) (limit page : Nat) :
    Nat → Nat → LoopState1 → LoopState1
  | _, 0, st => st
  | i, fuel + 1, st =>
    let currentPage := page + i
    let currentLimit := min 50 (limit - i * 50)
    let st' := { st with calls := st.calls ++ [(currentPage, currentLimit)] }
    match fetch currentPage currentLimit with
    | .error _ => st'
    | .ok resp =>
      let membersData := itemsOfSdk resp
      let st'' := { st' with requestsMade := st'.requestsMade + 1 }
      if membersData.isEmpty then st''
      else
        let contributors := membersData.map normalizeContributor1
        let st₃ := { st'' with unique := dedupFold st''.unique contributors }
        if limit ≤ st₃.unique.length then st₃
        else if contributors.length < currentLimit then st₃
        else contribLoop1 fetch limit page (i + 1) fuel st₃

/-- The multi-request run of the stdio contributors handler
(`numRequests = Math.ceil(limit / 50)`). -/
def contribRun1 (fetch : Fetcher1 RawContributor) (limit page : Nat) : LoopState1 :=
  contribLoop1 fetch limit page 0 (jsCeilDiv limit 50) ⟨[], 0, []⟩

/-- The `pagination` object of the stdio contributors results. -/
structure Pagination1 where
  page : Nat
  limit : Nat
  total : Nat
  hasMore : Bool
  requestsMade : Nat
  deduplicatedFrom : Option Nat
  error : Option String
deriving DecidableEq

/-- Result shape of the stdio contributors handler. -/
structure ContribResult1 where
  contributors : List ContributorRec1
  pagination : Pagination1
deriving DecidableEq

/-- Stdio `handleGetContributors`.  For `limit <= 50` one request is made
(a failure falls to the outer `catch`, which returns an empty result with
`error` set and `requestsMade: 0`); for larger limits the deduplicating loop
runs and the result is truncated to `limit`. -/
def handleGetContributors1 (fetch : Fetcher1 RawContributor) (limit page : Nat) :
    ContribResult1 :=
  if limit ≤ 50 then
    match fetch page limit with
    | .ok resp =>
      let membersData := itemsOfSdk resp
      let contributors := (membersData.take limit).map normalizeContributor1
      { contributors := contributors
      , pagination :=
        { page := page, limit := limit
        , total := jsOrNat resp.total contributors.length
        , hasMore := jsTruthy resp.hasMore || resp.next
        , requestsMade := 1, deduplicatedFrom := none, error := none } }
    | .error e =>
      { contributors := []
      , pagination :=
        { page := page, limit := limit, total := 0, hasMore := false
        , requestsMade := 0, deduplicatedFrom := none, error := some e } }
  else
    let st := contribRun1 fetch limit page
    let finalContributors := st.unique.take limit
    { contributors := finalContributors
    , pagination :=
      { page := page, limit := limit
      , total := finalContributors.length
      , hasMore := decide (limit < st.unique.length)
      , requestsMade := st.requestsMade
      , deduplicatedFrom := some st.unique.length, error := none } }

/-! ## Stdio single-page handlers used by the claims -/

/-- Metadata of the stdio committees result (note: no `requestsMade`). -/
structure CommitteesMeta1 where
  requested : Nat
  returned : Nat
  totalAvailable : Nat
  hasMore : Bool
deriving DecidableEq

structure CommitteesResult1 where
  committees : List CommitteeRec
  metadata : CommitteesMeta1
deriving DecidableEq

/-- Stdio `handleGetCommittees`: one upstream call
(`pageSize: limit, page: 1`); a failure reaches `handleSDKError`, which
throws `Failed to fetch data from OWASP Nest API: nest_get_committees`. -/
def handleGetCommittees1 (fetch : Fetcher RawCommittee) (limit : Nat) :
    Except String CommitteesResult1 :=
  match fetch 1 limit with
  | .error _ => .error "Failed to fetch data from OWASP Nest API: nest_get_committees"
  | .ok resp =>
    let committees := ((itemsOfNest resp).take limit).map normalizeCommittee
    .ok
      { committees := committees
      , metadata :=
        { requested := limit
        , returned := committees.length
        , totalAvailable := jsOrNat resp.totalCount committees.length
        , hasMore := jsTruthy resp.hasNext } }

/-- Errors thrown by the stdio handlers: either an `McpError` with an SDK
error code, or a plain `Error` message. -/
inductive McpCode where
  | MethodNotFound
  | InvalidParams
  | InternalError
deriving DecidableEq

inductive JsError where
  | mcp (code : McpCode) (msg : String)
  | plain (msg : String)
deriving DecidableEq

/-- Metadata of the stdio milestones/releases results. -/
structure RepoMeta1 where
  requested : Nat
  returned : Nat
  totalAvailable : Nat
  hasMore : Bool
  repository : String
deriving DecidableEq

structure MilestonesResult1 where
  milestones : List MilestoneRec
  metadata : RepoMeta1
deriving DecidableEq

/-- Stdio `handleGetMilestones`: throws
`McpError(ErrorCode.InvalidParams, 'repository parameter is required')`
before any upstream call when `repository` is falsy; otherwise issues one
call (`pageSize: limit, page: 1`). -/
def handleGetMilestones1 (fetch : Fetcher RawMilestone)
    (orgArg repoArg : Option String) (limit : Nat) :
    Except JsError MilestonesResult1 :=
  let organization := orgArg.getD "OWASP"
  if jsFalsyStr repoArg then
    .error (.mcp .InvalidParams "repository parameter is required")
  else
    let repository := repoArg.getD ""
    match fetch 1 limit with
    | .error _ => .error (.plain "Failed to fetch data from OWASP Nest API: nest_get_milestones")
    | .ok resp =>
      let milestones := ((itemsOfNest resp).take limit).map
        (normalizeMilestone organization repository)
      .ok
        { milestones := milestones
        , metadata :=
          { requested := limit
          , returned := milestones.length
          , totalAvailable := jsOrNat resp.totalCount milestones.length
          , hasMore := jsTruthy resp.hasNext
          , repository := organization ++ "/" ++ repository } }

structure ReleasesResult1 where
  releases : List ReleaseRec
  metadata : RepoMeta1
deriving DecidableEq

/-- Stdio `handleGetReleases`: same mandatory-`repository` guard as
milestones. -/
def handleGetReleases1 (fetch : Fetcher RawRelease)
    (orgArg repoArg : Option String) (limit : Nat) :
    Except JsError ReleasesResult1 :=
  let organization := orgArg.getD "OWASP"
  if jsFalsyStr repoArg then
    .error (.mcp .InvalidParams "repository parameter is required")
  else
    let repository := repoArg.getD ""
    match fetch 1 limit with
    | .error _ => .error (.plain "Failed to fetch data from OWASP Nest API: nest_get_releases")
    | .ok resp =>
      let releases := ((itemsOfNest resp).take limit).map
        (normalizeRelease organization repository)
      .ok
        { releases := releases
        , metadata :=
          { requested := limit
          , returned := releases.length
          , totalAvailable := jsOrNat resp.totalCount releases.length
          , hasMore := jsTruthy resp.hasNext
          , repository := organization ++ "/" ++ repository } }

/-! ## Tool dispatchers

The stdio server's `CallToolRequestSchema` handler and the HTTP server's
`app.post('/mcp')` route both dispatch on the tool name with a `switch`; the
embeddings record which handler would be invoked, or the rejection the
dispatcher produces instead (no handler runs on the `default` branch). -/

inductive HandlerId where
  | projects
  | events
  | issues
  | contributors
  | chapters
  | committees
  | milestones
  | releases
  | repositories
  | sponsors
  | searchInternet
deriving DecidableEq

/-- Outcome of the stdio dispatcher: invoke a handler, or throw an
`McpError` with an SDK error code. -/
inductive Dispatch1Out where
  | invoke (h : HandlerId)
  | mcpError (code : McpCode) (msg : String)
deriving DecidableEq

/-- Outcome of the HTTP `/mcp` route's tool `switch`: invoke a handler, or
answer with an HTTP status and a JSON-RPC error code. -/
inductive Dispatch2Out where
  | invoke (h : HandlerId)
  | httpError (status : Nat) (code : Int) (msg : String)
deriving DecidableEq

/-- The tool names both switches know, in source order. -/
def knownTools : List String :=
  [ "nest_get_projects", "nest_get_events", "nest_get_issues"
  , "nest_get_contributors", "nest_get_chapters", "nest_get_committees"
  , "nest_get_milestones", "nest_get_releases", "nest_get_repositories"
  , "nest_get_sponsors", "search_internet" ]

/-- Map a known tool name to its handler (shared by both switches). -/
def toolHandler (name : String) : Option HandlerId :=
  if name = "nest_get_projects" then some .projects
  else if name = "nest_get_events" then some .events
  else if name = "nest_get_issues" then some .issues
  else if name = "nest_get_contributors" then some .contributors
  else if name = "nest_get_chapters" then some .chapters
  else if name = "nest_get_committees" then some .committees
  else if name = "nest_get_milestones" then some .milestones
  else if name = "nest_get_releases" then some .releases
  else if name = "nest_get_repositories" then some .repositories
  else if name = "nest_get_sponsors" then some .sponsors
  else if name = "search_internet" then some .searchInternet
  else none

/-- Stdio dispatcher: unknown names hit the `default` branch, which throws
`McpError(ErrorCode.MethodNotFound, 'Unknown tool: ...')`. -/
def dispatch1 (name : String) : Dispatch1Out :=
  match toolHandler name with
  | some h => .invoke h
  | none => .mcpError .MethodNotFound ("Unknown tool: " ++ name)

/-- The JSON-RPC error code the HTTP route answers for a request whose
`method` is not `tools/call` (`code: -32601, message: 'Method not found'`,
line 2532 of the source). -/
def httpUnknownMethodCode : Int := -32601

/-- HTTP `/mcp` tool switch: unknown names hit the `default` branch, which
answers `400` with `code: -32602` and `Unknown tool: ...`. -/
def dispatch2 (name : String) : Dispatch2Out :=
  match toolHandler name with
  | some h => .invoke h
  | none => .httpError 400 (-32602) ("Unknown tool: " ++ name)

/-! ## `search_internet` (identical post-processing in both variants)

The cheerio HTML-extraction collaborator is treated as external: the handler
is modelled from the point where the page title, first `h1` text, body text,
meta descriptions and the raw `href` attribute list have been extracted. -/

structure SearchResult where
  url : String
  title : String
  description : String
  content : String
  links : List String
  githubLinks : List String
  success : Bool
deriving DecidableEq

/-- Success path of `handleSearchInternet`: title fallback chain, body text
whitespace collapse capped at 5000 characters, `href` filtering, and the
`[...new Set(links)].slice(0, 20)` bound. -/
def handleSearchInternetOk (url titleText h1Text bodyText : String)
    (metaName metaOg : Option String) (rawLinks : List (Option String)) :
    SearchResult :=
  let title := jsOrStrS titleText.trim (jsOrStrS h1Text.trim "No title")
  let content := jsSubstring (collapseNl (collapseWsToSpace bodyText)).trim 5000
  let links := (rawLinks.filterMap id).filter
    (fun h => h ≠ "" && (strStarts h "http" || strStarts h "https"))
  let githubLinks := links.filter (fun l => strIncludes l "github.com")
  let metaDescription := jsOrStr metaName (jsOrStr metaOg "")
  { url := url
  , title := title
  , description := metaDescription
  , content := content
  , links := (dedupKeepFirst links).take 20
  , githubLinks := dedupKeepFirst githubLinks
  , success := true }

/-! ## Concrete stubs used by counterexamples and witnesses -/

/-- Items of a possibly-thrown handler result (a thrown call returns no
items at all). -/
def exceptItems {α : Type} (r : Except String (Envelope α)) : List α :=
  match r with
  | .ok e => e.items
  | .error _ => []

/-- A raw contributor with every upstream field missing. -/
def rawContribEmpty : RawContributor :=
  ⟨none, none, none, none, none, none, none, none, none⟩

/-- Stub upstream for the C5 counterexample: one page of 3 records, a
reported total of 10, and `hasNext: false`. -/
def c5stub : Fetcher RawContributor :=
  fun _ _ => .ok ⟨some (List.replicate 3 rawContribEmpty), some 10, some false⟩

/-- A raw chapter with every upstream field missing. -/
def rawChEmpty : RawChapter := ⟨none, none, none, none, none, none, none⟩

/-- First page of the C6 stub: 5 items (fewer than the requested page size
of 100) but `hasNext: true`. -/
def c6resp1 : NestResp RawChapter :=
  ⟨some (List.replicate 5 rawChEmpty), some 500, some true⟩

/-- Later pages of the C6 stub. -/
def c6resp2 : NestResp RawChapter :=
  ⟨some (List.replicate 5 rawChEmpty), some 500, some false⟩

def c6stub : Fetcher RawChapter :=
  fun p _ => if p = 1 then .ok c6resp1 else .ok c6resp2

/-- Stub upstream whose first page is empty. -/
def c6wStub : Fetcher1 RawContributor :=
  fun _ _ => .ok ⟨some [], none, none, none, false⟩

def cFailP : Fetcher RawProject := fun _ _ => .error "network down"

def cFailCh : Fetcher RawChapter := fun _ _ => .error "network down"

def cFailC : Fetcher RawContributor := fun _ _ => .error "network down"

def cFailI : Fetcher RawIssue := fun _ _ => .error "network down"

/-- Distinct url per index: `j+1` copies of `u`. -/
def c2url (j : Nat) : String := ⟨List.replicate (j + 1) 'u'⟩

def c2item (j : Nat) : RawProject :=
  ⟨none, none, none, none, some (c2url j), none, none, none⟩

/-- C2 stub: page 1 serves 100 fresh records, page 2 re-serves the first
record (overlapping pagination). -/
def c2stub : Fetcher RawProject :=
  fun p s =>
    if p = 1 then .ok ⟨some ((List.range s).map c2item), none, some true⟩
    else .ok ⟨some [c2item 0], none, some false⟩

/-- C2 witness stub: every page serves the same 60 records. -/
def c2wStub : Fetcher1 RawContributor :=
  fun _ _ => .ok ⟨some (List.replicate 60 rawContribEmpty), none, none, none, false⟩

/-- Unlimited HTTP stub: every call answers exactly the requested size and
keeps signalling more data. -/
def c3stub2 : Fetcher RawContributor :=
  fun _ s => .ok ⟨some (List.replicate s rawContribEmpty), none, some true⟩

/-- Globally distinct url per (page, index), via the Cantor pairing. -/
def c3url (p j : Nat) : String := ⟨List.replicate (Nat.pair p j + 1) 'u'⟩

def c3raw (p j : Nat) : RawContributor :=
  ⟨none, none, none, none, none, some (c3url p j), none, none, none⟩

def c3pages (p s : Nat) : List RawContributor := (List.range s).map (c3raw p)

/-- Unlimited stdio stub: every page serves exactly the requested number of
records with globally fresh urls. -/
def c3stub1 : Fetcher1 RawContributor :=
  fun p s => .ok ⟨some (c3pages p s), none, none, none, false⟩

/-- Committees of a possibly-thrown stdio result. -/
def committeesOf1 (r : Except String CommitteesResult1) : List CommitteeRec :=
  match r with
  | .ok e => e.committees
  | .error _ => []

/-- Milestones of a possibly-thrown stdio result. -/
def milestonesOf1 (r : Except JsError MilestonesResult1) : List MilestoneRec :=
  match r with
  | .ok e => e.milestones
  | .error _ => []

/-- Releases of a possibly-thrown stdio result. -/
def releasesOf1 (r : Except JsError ReleasesResult1) : List ReleaseRec :=
  match r with
  | .ok e => e.releases
  | .error _ => []

/-! ## Basic lemmas -/

theorem str_ne_empty_of_data {s : String} (h : s.data ≠ []) : s ≠ "" := by
  intro he
  exact h (by subst he; rfl)

theorem append_ne_empty_left (a b : String) (ha : a ≠ "") : a ++ b ≠ "" := by
  apply str_ne_empty_of_data
  intro h
  have hd : a.data ++ b.data = [] := h
  exact ha (by
    cases a with
    | mk l => cases (List.append_eq_nil.mp hd).1; rfl)

theorem jsOrStrS_ne (s d : String) (hd : d ≠ "") : jsOrStrS s d ≠ "" := by
  unfold jsOrStrS
  split
  · exact hd
  · assumption

theorem jsOrStr_ne (o : Option String) (d : String) (hd : d ≠ "") : jsOrStr o d ≠ "" := by
  cases o with
  | none => exact hd
  | some s => exact jsOrStrS_ne s d hd

theorem dedupKeepFirstAux_nodup :
    ∀ (l seen : List String),
      (dedupKeepFirstAux seen l).Nodup ∧ ∀ x ∈ dedupKeepFirstAux seen l, x ∉ seen := by
  intro l
  induction l with
  | nil => intro seen; simp [dedupKeepFirstAux]
  | cons a as ih =>
    intro seen
    by_cases ha : a ∈ seen
    · simp only [dedupKeepFirstAux, if_pos ha]
      exact ih seen
    · simp only [dedupKeepFirstAux, if_neg ha]
      obtain ⟨h1, h2⟩ := ih (a :: seen)
      refine ⟨List.nodup_cons.mpr ⟨fun hmem => h2 a hmem (List.mem_cons_self a seen), h1⟩, ?_⟩
      intro x hx
      rcases List.mem_cons.mp hx with h | h
      · subst h; exact ha
      · exact fun hs => h2 x h (List.mem_cons_of_mem a hs)

theorem dedupKeepFirst_nodup (l : List String) : (dedupKeepFirst l).Nodup :=
  (dedupKeepFirstAux_nodup l []).1

/-- Claim C10: every successful `search_internet` result is bounded: the
`links` array has at most 20 pairwise-distinct entries and the `content`
string is at most 5000 characters, whatever the fetched page contained. -/
theorem searchInternet_result_bounded
    (url titleText h1Text bodyText : String) (metaName metaOg : Option String)
    (rawLinks : List (Option String)) :
    (handleSearchInternetOk url titleText h1Text bodyText metaName metaOg rawLinks).links.length ≤ 20 ∧
    (handleSearchInternetOk url titleText h1Text bodyText metaName metaOg rawLinks).links.Nodup ∧
    (handleSearchInternetOk url titleText h1Text bodyText metaName metaOg rawLinks).content.length ≤ 5000 := by
  refine ⟨?_, ?_, ?_⟩
  · exact List.length_take_le _ _
  · exact List.Nodup.sublist (List.take_sublist _ _) (dedupKeepFirst_nodup _)
  · show (List.take 5000 _).length ≤ 5000
    exact List.length_take_le _ _

/-- Claim C8 counterexample: the issues normalizer leaves `created` and the
chapters normalizer leaves `meetingFrequency` absent (`undefined`, modelled
as `none`) on the empty raw item, so not every canonical field is filled
with a fallback literal. -/
theorem normalizer_absent_field_counterexample :
    (normalizeIssue none none ⟨none, none, none, none, none, none, none⟩).created = none ∧
    (normalizeChapter ⟨none, none, none, none, none, none, none⟩).meetingFrequency = none :=
  ⟨rfl, rfl⟩

/-- Claim C8 (amended): for every resource type and raw item, the normalized
record's name-equivalent and url-equivalent fields are non-empty strings
(documented fallback literals or URL templates); the remaining fields get
their fallbacks too, except `issues.created`, `chapters.meetingFrequency`
and the HTTP events `key`, which are copied as possibly-undefined. -/
theorem normalizer_name_url_nonempty :
    (∀ t p, (normalizeProject t p).name ≠ "" ∧ (normalizeProject t p).url ≠ "") ∧
    (∀ e, (normalizeEvent1 e).name ≠ "" ∧ (normalizeEvent1 e).url ≠ "") ∧
    (∀ e, (normalizeEvent2 e).name ≠ "" ∧ (normalizeEvent2 e).url ≠ "") ∧
    (∀ pa pj i, (normalizeIssue pa pj i).title ≠ "" ∧ (normalizeIssue pa pj i).url ≠ "") ∧
    (∀ c, (normalizeContributor1 c).name ≠ "" ∧ (normalizeContributor1 c).url ≠ "") ∧
    (∀ fmt c, (normalizeContributor2 fmt c).name ≠ "" ∧ (normalizeContributor2 fmt c).url ≠ "") ∧
    (∀ ch, (normalizeChapter ch).name ≠ "" ∧ (normalizeChapter ch).url ≠ "") ∧
    (∀ c, (normalizeCommittee c).name ≠ "" ∧ (normalizeCommittee c).url ≠ "") ∧
    (∀ o r m, (normalizeMilestone o r m).title ≠ "" ∧ (normalizeMilestone o r m).url ≠ "") ∧
    (∀ o r x, (normalizeRelease o r x).name ≠ "" ∧ (normalizeRelease o r x).url ≠ "") ∧
    (∀ o x, (normalizeRepository o x).name ≠ "" ∧ (normalizeRepository o x).url ≠ "") ∧
    (∀ s, (normalizeSponsor s).name ≠ "" ∧ (normalizeSponsor s).url ≠ "") := by
  refine ⟨fun t p => ⟨?_, ?_⟩, fun e => ⟨?_, ?_⟩, fun e => ⟨?_, ?_⟩,
    fun pa pj i => ⟨?_, ?_⟩, fun c => ⟨?_, ?_⟩, fun fmt c => ⟨?_, ?_⟩,
    fun ch => ⟨?_, ?_⟩, fun c => ⟨?_, ?_⟩, fun o r m => ⟨?_, ?_⟩,
    fun o r x => ⟨?_, ?_⟩, fun o x => ⟨?_, ?_⟩, fun s => ⟨?_, ?_⟩⟩ <;>
  first
    | exact jsOrStr_ne _ _ (by decide)
    | exact jsOrStr_ne _ _ (jsOrStr_ne _ _ (by decide))
    | exact jsOrStr_ne _ _ (append_ne_empty_left _ _ (by decide))
    | exact jsOrStr_ne _ _ (append_ne_empty_left _ _ (append_ne_empty_left _ _ (by decide)))
    | exact jsOrStr_ne _ _
        (jsOrStr_ne _ _ (append_ne_empty_left _ _ (append_ne_empty_left _ _ (by decide))))
    | exact jsOrStr_ne _ _
        (jsOrStr_ne _ _ (append_ne_empty_left _ _ (append_ne_empty_left _ _
          (append_ne_empty_left _ _ (by decide)))))
    | exact jsOrStr_ne _ _
        (jsOrStr_ne _ _ (append_ne_empty_left _ _ (append_ne_empty_left _ _
          (append_ne_empty_left _ _ (append_ne_empty_left _ _ (by decide))))))

/-- Claim C7: in both variants, a milestones or releases call without the
`repository` filter is rejected with the missing-parameter error (an
`McpError(InvalidParams, ...)` in the stdio variant, a thrown `Error` in the
HTTP variant) and no upstream call is issued: the result does not depend on
the upstream fetcher at all. -/
theorem milestones_releases_require_repository :
    (∀ (f g : Fetcher RawMilestone) (org : Option String) (limit : Nat),
      handleGetMilestones1 f org none limit
          = .error (.mcp .InvalidParams "repository parameter is required") ∧
      handleGetMilestones1 f org none limit = handleGetMilestones1 g org none limit) ∧
    (∀ (f g : Fetcher RawRelease) (org : Option String) (limit : Nat),
      handleGetReleases1 f org none limit
          = .error (.mcp .InvalidParams "repository parameter is required") ∧
      handleGetReleases1 f org none limit = handleGetReleases1 g org none limit) ∧
    (∀ (f g : Fetcher RawMilestone) (org : Option String) (limit : Nat),
      handleGetMilestones2 f org none limit = .error "repository parameter is required" ∧
      handleGetMilestones2 f org none limit = handleGetMilestones2 g org none limit) ∧
    (∀ (f g : Fetcher RawRelease) (org : Option String) (limit : Nat),
      handleGetReleases2 f org none limit = .error "repository parameter is required" ∧
      handleGetReleases2 f org none limit = handleGetReleases2 g org none limit) :=
  ⟨fun _ _ _ _ => ⟨rfl, rfl⟩, fun _ _ _ _ => ⟨rfl, rfl⟩,
   fun _ _ _ _ => ⟨rfl, rfl⟩, fun _ _ _ _ => ⟨rfl, rfl⟩⟩

theorem mkOkEnvelope_items_le {α : Type} (limit : Nat) (st : LoopState α) :
    (mkOkEnvelope limit st).items.length ≤ limit :=
  List.length_take_le _ _

/-- Claim C4: for every resource type, every limit and every upstream
behaviour (including overshooting pages), the returned items never exceed
`requestedLimit`: every handler truncates with `slice(0, limit)` before
building its envelope. -/
theorem returned_le_requested :
    (∀ fetch t limit, (exceptItems (handleGetProjects2 fetch t limit)).length ≤ limit) ∧
    (∀ fetch limit, (exceptItems (handleGetChapters2 fetch limit)).length ≤ limit) ∧
    (∀ fetch pa pj limit, (handleGetIssues2 fetch pa pj limit).items.length ≤ limit) ∧
    (∀ fmt fetch limit, (handleGetContributors2 fmt fetch limit).items.length ≤ limit) ∧
    (∀ fetch limit, (handleGetCommittees2 fetch limit).items.length ≤ limit) ∧
    (∀ fetch org repo limit,
      (exceptItems (handleGetMilestones2 fetch org repo limit)).length ≤ limit) ∧
    (∀ fetch org repo limit,
      (exceptItems (handleGetReleases2 fetch org repo limit)).length ≤ limit) ∧
    (∀ fetch limit page, (handleGetContributors1 fetch limit page).contributors.length ≤ limit) ∧
    (∀ fetch limit, (committeesOf1 (handleGetCommittees1 fetch limit)).length ≤ limit) ∧
    (∀ fetch org repo limit,
      (milestonesOf1 (handleGetMilestones1 fetch org repo limit)).length ≤ limit) ∧
    (∀ fetch org repo limit,
      (releasesOf1 (handleGetReleases1 fetch org repo limit)).length ≤ limit) := by
  refine ⟨?_, ?_, ?_, ?_, ?_, ?_, ?_, ?_, ?_, ?_, ?_⟩
  · intro fetch t limit
    simp only [handleGetProjects2, exceptItems]
    cases h : (httpRun (mapFetcher (normalizeProject t) fetch) limit).failed with
    | some e => simp
    | none => exact mkOkEnvelope_items_le _ _
  · intro fetch limit
    simp only [handleGetChapters2, exceptItems]
    cases h : (handleGetChapters2Run fetch limit).failed with
    | some e => simp
    | none => exact mkOkEnvelope_items_le _ _
  · intro fetch pa pj limit
    simp only [handleGetIssues2]
    cases h : (httpRun (mapFetcher (normalizeIssue pa pj) fetch) limit).failed with
    | some e => simp [errEnvelope]
    | none => exact mkOkEnvelope_items_le _ _
  · intro fmt fetch limit
    exact mkOkEnvelope_items_le _ _
  · intro fetch limit
    simp only [handleGetCommittees2]
    cases h : (httpRun (mapFetcher normalizeCommittee fetch) limit).failed with
    | some e => simp [errEnvelope]
    | none => exact mkOkEnvelope_items_le _ _
  · intro fetch org repo limit
    simp only [handleGetMilestones2, exceptItems]
    by_cases h : jsFalsyStr repo
    · simp [h]
    · simp only [h, Bool.false_eq_true, if_false, ite_false]
      cases hf : (httpRun (mapFetcher
          (normalizeMilestone (org.getD "OWASP") (repo.getD "")) fetch) limit).failed with
      | some e => simp [errEnvelope]
      | none => exact mkOkEnvelope_items_le _ _
  · intro fetch org repo limit
    simp only [handleGetReleases2, exceptItems]
    by_cases h : jsFalsyStr repo
    · simp [h]
    · simp only [h, Bool.false_eq_true, if_false, ite_false]
      cases hf : (httpRun (mapFetcher
          (normalizeRelease (org.getD "OWASP") (repo.getD "")) fetch) limit).failed with
      | some e => simp [errEnvelope]
      | none => exact mkOkEnvelope_items_le _ _
  · intro fetch limit page
    simp only [handleGetContributors1]
    by_cases h : limit ≤ 50
    · simp only [h, if_true, ite_true]
      cases hf : fetch page limit with
      | ok resp =>
        simp only
        calc (((itemsOfSdk resp).take limit).map normalizeContributor1).length
            = ((itemsOfSdk resp).take limit).length := List.length_map _ _
          _ ≤ limit := List.length_take_le _ _
      | error e => simp
    · simp only [h, if_false, ite_false]
      exact List.length_take_le _ _
  · intro fetch limit
    simp only [handleGetCommittees1, committeesOf1]
    cases h : fetch 1 limit with
    | error e => simp
    | ok resp =>
      calc (((itemsOfNest resp).take limit).map normalizeCommittee).length
          = ((itemsOfNest resp).take limit).length := List.length_map _ _
        _ ≤ limit := List.length_take_le _ _
  · intro fetch org repo limit
    simp only [handleGetMilestones1, milestonesOf1]
    by_cases hr : jsFalsyStr repo
    · simp [hr]
    · simp only [hr, Bool.false_eq_true, if_false, ite_false]
      cases h : fetch 1 limit with
      | error e => simp
      | ok resp =>
        calc (((itemsOfNest resp).take limit).map
              (normalizeMilestone (org.getD "OWASP") (repo.getD ""))).length
            = ((itemsOfNest resp).take limit).length := List.length_map _ _
          _ ≤ limit := List.length_take_le _ _
  · intro fetch org repo limit
    simp only [handleGetReleases1, releasesOf1]
    by_cases hr : jsFalsyStr repo
    · simp [hr]
    · simp only [hr, Bool.false_eq_true, if_false, ite_false]
      cases h : fetch 1 limit with
      | error e => simp
      | ok resp =>
        calc (((itemsOfNest resp).take limit).map
              (normalizeRelease (org.getD "OWASP") (repo.getD ""))).length
            = ((itemsOfNest resp).take limit).length := List.length_map _ _
          _ ≤ limit := List.length_take_le _ _

/-- Claim C9 counterexample: the HTTP route's tool switch rejects the
unknown tool name `no_such_tool` with JSON-RPC error code -32602, which is
not the method-not-found code -32601 that the very same route answers for an
unknown JSON-RPC method, so the HTTP variant's rejection is not a
MethodNotFound-style error. -/
theorem dispatch2_unknown_tool_code_counterexample :
    dispatch2 "no_such_tool" = .httpError 400 (-32602) "Unknown tool: no_such_tool" ∧
    (-32602 : Int) ≠ httpUnknownMethodCode := by
  exact ⟨by decide, by decide⟩

/-- Claim C9 (amended): both dispatch switches reject an unknown tool name
with an `Unknown tool` error and invoke no handler; the stdio switch throws
`McpError(ErrorCode.MethodNotFound, ...)`, while the HTTP route responds
HTTP 400 with JSON-RPC code -32602 (its -32601 method-not-found code is
reserved for unknown JSON-RPC methods). -/
theorem dispatch_unknown_tool_rejected (name : String) (h : name ∉ knownTools) :
    dispatch1 name = .mcpError .MethodNotFound ("Unknown tool: " ++ name) ∧
    dispatch2 name = .httpError 400 (-32602) ("Unknown tool: " ++ name) := by
  have h1 : name ≠ "nest_get_projects" := fun he => h (by subst he; decide)
  have h2 : name ≠ "nest_get_events" := fun he => h (by subst he; decide)
  have h3 : name ≠ "nest_get_issues" := fun he => h (by subst he; decide)
  have h4 : name ≠ "nest_get_contributors" := fun he => h (by subst he; decide)
  have h5 : name ≠ "nest_get_chapters" := fun he => h (by subst he; decide)
  have h6 : name ≠ "nest_get_committees" := fun he => h (by subst he; decide)
  have h7 : name ≠ "nest_get_milestones" := fun he => h (by subst he; decide)
  have h8 : name ≠ "nest_get_releases" := fun he => h (by subst he; decide)
  have h9 : name ≠ "nest_get_repositories" := fun he => h (by subst he; decide)
  have h10 : name ≠ "nest_get_sponsors" := fun he => h (by subst he; decide)
  have h11 : name ≠ "search_internet" := fun he => h (by subst he; decide)
  have ht : toolHandler name = none := by
    unfold toolHandler
    rw [if_neg h1, if_neg h2, if_neg h3, if_neg h4, if_neg h5, if_neg h6,
      if_neg h7, if_neg h8, if_neg h9, if_neg h10, if_neg h11]
  exact ⟨by simp [dispatch1, ht], by simp [dispatch2, ht]⟩

/-- Witness for the amended claim C9 at the concrete name `bogus_tool`. -/
theorem dispatch_unknown_tool_rejected_witness :
    dispatch1 "bogus_tool" = .mcpError .MethodNotFound "Unknown tool: bogus_tool" ∧
    dispatch2 "bogus_tool" = .httpError 400 (-32602) "Unknown tool: bogus_tool" :=
  dispatch_unknown_tool_rejected "bogus_tool" (by decide)

/-- Claim C5 counterexample: for the HTTP contributors aggregation over
`c5stub` with limit 5 the code reports `hasMore = false` although
`totalAvailable (10) > returned (3)`, so `hasMore` is not the claimed
`totalAvailable > returned`. -/
theorem pagination_hasMore_counterexample :
    (handleGetContributors2 id c5stub 5).metadata.returned = 3 ∧
    (handleGetContributors2 id c5stub 5).metadata.totalAvailable = 10 ∧
    (handleGetContributors2 id c5stub 5).metadata.hasMore = false ∧
    (handleGetContributors2 id c5stub 5).metadata.hasMore
      ≠ decide ((handleGetContributors2 id c5stub 5).metadata.returned
          < (handleGetContributors2 id c5stub 5).metadata.totalAvailable) := by
  refine ⟨by decide, by decide, by decide, by decide⟩

theorem httpLoopGo_requests_eq_calls {α : Type} (fetch : Fetcher α) (limit ps : Nat) :
    ∀ (fuel page : Nat) (st : LoopState α),
      st.requestsMade = st.calls.length →
      (httpLoopGo fetch limit ps page fuel st).failed = none →
      (httpLoopGo fetch limit ps page fuel st).state.requestsMade
        = (httpLoopGo fetch limit ps page fuel st).state.calls.length := by
  intro fuel
  induction fuel with
  | zero => intro page st h _; simpa [httpLoopGo] using h
  | succ n ih =>
    intro page st h hf
    simp only [httpLoopGo] at hf ⊢
    cases hfe : fetch page (min ps (limit - st.collected.length)) with
    | error e => simp [hfe] at hf
    | ok resp =>
      simp only [hfe] at hf ⊢
      have hcal : (st.calls ++ [(page, min ps (limit - st.collected.length))]).length
          = st.calls.length + 1 := by simp
      by_cases h1 : limit ≤ (st.collected ++ itemsOfNest resp).length
      · simp only [h1, if_true, ite_true] at hf ⊢
        simp [h, hcal]
      · simp only [h1, if_false, ite_false] at hf ⊢
        by_cases h2 : jsTruthy resp.hasNext
        · simp only [h2, if_true, ite_true] at hf ⊢
          exact ih (page + 1) _ (by simp [h, hcal]) hf
        · simp only [h2, if_false, ite_false] at hf ⊢
          simp [h, hcal]

/-- Claim C5 (amended): for the HTTP contributors aggregation,
`requested = requestedLimit` and `returned = items.length` always hold,
`hasMore` implies `returned < totalAvailable` (the code computes
`hasNext && returned < totalAvailable`, and `totalAvailable` stays 0 when
the upstream never reports a nonzero total), and on a failure-free run
`requestsMade` equals the number of upstream calls issued; the stdio
committees handler instead reports `totalAvailable` with a fallback to the
returned length and `hasMore` as the raw upstream `hasNext` flag, with no
`requestsMade` field at all. -/
theorem pagination_metadata_formulas :
    (∀ (fmt : String → String) (fetch : Fetcher RawContributor) (limit : Nat),
      (handleGetContributors2 fmt fetch limit).metadata.requested = limit ∧
      (handleGetContributors2 fmt fetch limit).metadata.returned
        = (handleGetContributors2 fmt fetch limit).items.length ∧
      ((handleGetContributors2 fmt fetch limit).metadata.hasMore = true →
        (handleGetContributors2 fmt fetch limit).metadata.returned
          < (handleGetContributors2 fmt fetch limit).metadata.totalAvailable) ∧
      ((handleGetContributors2Run fmt fetch limit).failed = none →
        (handleGetContributors2 fmt fetch limit).metadata.requestsMade
          = (handleGetContributors2Run fmt fetch limit).state.calls.length)) ∧
    (∀ (fetch : Fetcher RawCommittee) (limit : Nat) (resp : NestResp RawCommittee),
      fetch 1 limit = .ok resp →
      ∃ env, handleGetCommittees1 fetch limit = .ok env ∧
        env.metadata.requested = limit ∧
        env.metadata.returned = env.committees.length ∧
        env.metadata.totalAvailable = jsOrNat resp.totalCount env.committees.length ∧
        env.metadata.hasMore = jsTruthy resp.hasNext) := by
  constructor
  · intro fmt fetch limit
    refine ⟨rfl, rfl, ?_, ?_⟩
    · intro hm
      simp only [handleGetContributors2, mkOkEnvelope, Bool.and_eq_true,
        decide_eq_true_eq] at hm ⊢
      exact hm.2
    · intro hfail
      exact httpLoopGo_requests_eq_calls _ _ _ _ _ _ rfl hfail
  · intro fetch limit resp hresp
    simp only [handleGetCommittees1, hresp]
    exact ⟨_, rfl, rfl, rfl, rfl, rfl⟩

/-- Witness for the amended claim C5 at a concrete stub and limit. -/
theorem pagination_metadata_formulas_witness :
    ((handleGetContributors2 id c5stub 5).metadata.hasMore = true →
      (handleGetContributors2 id c5stub 5).metadata.returned
        < (handleGetContributors2 id c5stub 5).metadata.totalAvailable) ∧
    ((handleGetContributors2Run id c5stub 5).failed = none →
      (handleGetContributors2 id c5stub 5).metadata.requestsMade
        = (handleGetContributors2Run id c5stub 5).state.calls.length) ∧
    ∃ env, handleGetCommittees1 (fun _ _ => .ok ⟨some [], some 7, some true⟩) 4 = .ok env ∧
      env.metadata.requested = 4 ∧
      env.metadata.returned = env.committees.length ∧
      env.metadata.totalAvailable = jsOrNat (some 7) env.committees.length ∧
      env.metadata.hasMore = jsTruthy (some true) :=
  ⟨(pagination_metadata_formulas.1 id c5stub 5).2.2.1,
   (pagination_metadata_formulas.1 id c5stub 5).2.2.2,
   pagination_metadata_formulas.2 (fun _ _ => .ok ⟨some [], some 7, some true⟩) 4
     ⟨some [], some 7, some true⟩ rfl⟩

/-- Claim C6 counterexample: in the HTTP chapters aggregation with limit 150,
page 1 returns only 5 of the 100 requested items, yet because the upstream
says `hasNext: true` the loop still requests page 2 — the short page is not
treated as an exhaustion signal. -/
theorem chapters_short_page_counterexample :
    (itemsOfNest c6resp1).length = 5 ∧
    (handleGetChapters2Run c6stub 150).state.calls = [(1, 100), (2, 100)] := by
  exact ⟨by decide, by decide⟩

/-- Claim C6 (amended): the stdio contributors aggregator stops exactly as
claimed (an empty or short page ends the pagination, in particular zero
items on the first page give `returned = 0` and `requestsMade = 1` with no
second call); the HTTP-variant loops instead stop after a page precisely
when the accumulated count reached the limit or that page reported
`hasNext` false (or the planned page budget is exhausted), so a short or
empty page there stops further requests only together with an exhausted
budget or a false `hasNext`. -/
theorem exhaustion_stop_behaviour :
    (∀ (fetch : Fetcher1 RawContributor) (limit page : Nat) (resp : SdkResp RawContributor),
      50 < limit → fetch page 50 = .ok resp → itemsOfSdk resp = [] →
      (handleGetContributors1 fetch limit page).contributors = [] ∧
      (handleGetContributors1 fetch limit page).pagination.requestsMade = 1 ∧
      (contribRun1 fetch limit page).calls = [(page, 50)]) ∧
    (∀ (fetch : Fetcher1 RawContributor) (limit page i fuel : Nat) (st : LoopState1)
       (resp : SdkResp RawContributor),
      fetch (page + i) (min 50 (limit - i * 50)) = .ok resp →
      (itemsOfSdk resp).length < min 50 (limit - i * 50) →
      (contribLoop1 fetch limit page i (fuel + 1) st).calls
        = st.calls ++ [(page + i, min 50 (limit - i * 50))]) ∧
    (∀ (α : Type) (fetch : Fetcher α) (limit ps page fuel : Nat) (st : LoopState α)
       (resp : NestResp α),
      fetch page (min ps (limit - st.collected.length)) = .ok resp →
      (jsTruthy resp.hasNext = false ∨ limit ≤ (st.collected ++ itemsOfNest resp).length) →
      (httpLoopGo fetch limit ps page (fuel + 1) st).state.calls
        = st.calls ++ [(page, min ps (limit - st.collected.length))]) := by
  have hstep :
      ∀ (fetch : Fetcher1 RawContributor) (limit page i fuel : Nat) (st : LoopState1)
        (resp : SdkResp RawContributor),
        fetch (page + i) (min 50 (limit - i * 50)) = .ok resp →
        (itemsOfSdk resp).length < min 50 (limit - i * 50) →
        (contribLoop1 fetch limit page i (fuel + 1) st).calls
          = st.calls ++ [(page + i, min 50 (limit - i * 50))] := by
    intro fetch limit page i fuel st resp hf hlen
    simp only [contribLoop1, hf]
    by_cases hemp : (itemsOfSdk resp).isEmpty
    · simp [hemp]
    · simp only [hemp, Bool.false_eq_true, if_false, ite_false]
      by_cases hl : limit ≤ (dedupFold st.unique ((itemsOfSdk resp).map normalizeContributor1)).length
      · simp [hl]
      · have hcond : (itemsOfSdk resp).length < 50 ∧ (itemsOfSdk resp).length < limit - i * 50 :=
          lt_min_iff.mp hlen
        simp [hl, hcond]
  refine ⟨?_, hstep, ?_⟩
  · intro fetch limit page resp hlim hf hempty
    have hnot : ¬ limit ≤ 50 := by omega
    have hmin : min 50 (limit - 0 * 50) = 50 := by omega
    have hfuel : jsCeilDiv limit 50 ≠ 0 := by
      unfold jsCeilDiv
      have : 50 ≤ limit + 50 - 1 := by omega
      have := Nat.le_div_iff_mul_le (by omega : 0 < 50) |>.mpr (by omega : 1 * 50 ≤ limit + 50 - 1)
      omega
    obtain ⟨k, hk⟩ := Nat.exists_eq_succ_of_ne_zero hfuel
    have hrun : contribRun1 fetch limit page =
        { unique := [], requestsMade := 1, calls := [(page, 50)] } := by
      unfold contribRun1
      rw [hk]
      simp only [contribLoop1, Nat.add_zero, hmin, hf, hempty, List.isEmpty_nil, if_true, ite_true]
      rfl
    refine ⟨?_, ?_, by rw [hrun]⟩
    · simp [handleGetContributors1, hnot, hrun]
    · simp [handleGetContributors1, hnot, hrun]
  · intro α fetch limit ps page fuel st resp hf hstop
    simp only [httpLoopGo, hf]
    by_cases hl : limit ≤ st.collected.length + (itemsOfNest resp).length
    · simp [hl]
    · rcases hstop with hnext | hle
      · simp [hl, hnext]
      · exact absurd (by simpa using hle) hl

/-- Witness for the amended claim C6: an empty first page of the stdio
contributors aggregation gives zero results, one request, one issued call. -/
theorem exhaustion_stop_behaviour_witness :
    (handleGetContributors1 c6wStub 60 1).contributors = [] ∧
    (handleGetContributors1 c6wStub 60 1).pagination.requestsMade = 1 ∧
    (contribRun1 c6wStub 60 1).calls = [(1, 50)] :=
  exhaustion_stop_behaviour.1 c6wStub 60 1 ⟨some [], none, none, none, false⟩
    (by decide) rfl rfl

theorem jsCeilDiv_min_pos (limit : Nat) (h : 1 ≤ limit) :
    jsCeilDiv limit (min limit 100) ≠ 0 := by
  have hb : 0 < min limit 100 := by omega
  unfold jsCeilDiv
  have hle : 1 * min limit 100 ≤ limit + min limit 100 - 1 := by omega
  have := (Nat.le_div_iff_mul_le hb).mpr hle
  omega

/-- If every upstream call fails, the HTTP page loop stops on page 1 with
nothing collected, `requestsMade` 0, one issued call, and the failure
recorded. -/
theorem httpRun_all_fail {α : Type} (fetch : Fetcher α) (limit : Nat) (msg : String)
    (hlim : 1 ≤ limit) (hf : ∀ p s, fetch p s = .error msg) :
    httpRun fetch limit =
      ⟨⟨[], 0, false, 0, [(1, min limit 100)]⟩, some msg⟩ := by
  obtain ⟨k, hk⟩ := Nat.exists_eq_succ_of_ne_zero (jsCeilDiv_min_pos limit hlim)
  show httpLoopGo fetch limit (min limit 100) 1 (jsCeilDiv limit (min limit 100))
      ⟨[], 0, false, 0, []⟩ = _
  rw [hk]
  have hcps : min (min limit 100) (limit - (0 : Nat)) = min limit 100 := by omega
  simp [httpLoopGo, hf, hcps]

/-- An always-failing raw fetcher stays always-failing after per-item
normalization. -/
theorem mapFetcher_all_fail {ρ α : Type} (f : ρ → α) (fetch : Fetcher ρ) (msg : String)
    (hf : ∀ p s, fetch p s = .error msg) :
    ∀ p s, mapFetcher f fetch p s = .error msg := by
  intro p s
  simp [mapFetcher, hf p s, Except.map]

/-- Claim C1 counterexample: when the very first upstream page fails, the
HTTP-variant projects handler does not return an envelope at all — it
re-throws the failure to the caller. -/
theorem projects_failure_raises_counterexample :
    handleGetProjects2 cFailP none 10 = .error "network down" := by
  have h := httpRun_all_fail (mapFetcher (normalizeProject none) cFailP) 10 "network down"
    (by decide) (mapFetcher_all_fail _ _ _ (fun _ _ => rfl))
  simp [handleGetProjects2, h]

/-- Claim C1 (amended): on upstream failure the HTTP-variant projects and
chapters handlers propagate the failure as a raised exception; the
issues-style handlers return an empty envelope with `metadata.error` set to
the failure message; the contributors handler never raises — it returns a
success-shaped envelope built from the items collected before the failing
page, with no error recorded (empty, with `requestsMade` 0, when the first
page already fails). -/
theorem upstream_failure_envelopes (msg : String) (limit : Nat) (fmt : String → String)
    (fP : Fetcher RawProject) (fCh : Fetcher RawChapter)
    (fC : Fetcher RawContributor) (fI : Fetcher RawIssue)
    (hlim : 1 ≤ limit)
    (hP : ∀ p s, fP p s = .error msg) (hCh : ∀ p s, fCh p s = .error msg)
    (hC : ∀ p s, fC p s = .error msg) (hI : ∀ p s, fI p s = .error msg) :
    handleGetProjects2 fP none limit = .error msg ∧
    handleGetChapters2 fCh limit = .error msg ∧
    (handleGetIssues2 fI none none limit).items = [] ∧
    (handleGetIssues2 fI none none limit).metadata.error = some msg ∧
    (handleGetContributors2 fmt fC limit).items = [] ∧
    (handleGetContributors2 fmt fC limit).metadata.error = none ∧
    (handleGetContributors2 fmt fC limit).metadata.requestsMade = 0 := by
  have hPr := httpRun_all_fail (mapFetcher (normalizeProject none) fP) limit msg hlim
    (mapFetcher_all_fail _ _ _ hP)
  have hChr := httpRun_all_fail (mapFetcher normalizeChapter fCh) limit msg hlim
    (mapFetcher_all_fail _ _ _ hCh)
  have hIr := httpRun_all_fail (mapFetcher (normalizeIssue none none) fI) limit msg hlim
    (mapFetcher_all_fail _ _ _ hI)
  have hCr := httpRun_all_fail (mapFetcher (normalizeContributor2 fmt) fC) limit msg hlim
    (mapFetcher_all_fail _ _ _ hC)
  refine ⟨?_, ?_, ?_, ?_, ?_, ?_, ?_⟩
  · simp [handleGetProjects2, hPr]
  · simp [handleGetChapters2, handleGetChapters2Run, hChr]
  · simp [handleGetIssues2, hIr, errEnvelope]
  · simp [handleGetIssues2, hIr, errEnvelope]
  · simp [handleGetContributors2, handleGetContributors2Run, hCr, mkOkEnvelope]
  · simp [handleGetContributors2, handleGetContributors2Run, hCr, mkOkEnvelope]
  · simp [handleGetContributors2, handleGetContributors2Run, hCr, mkOkEnvelope]

/-- Witness for the amended claim C1 at concrete always-failing stubs. -/
theorem upstream_failure_envelopes_witness :
    handleGetProjects2 cFailP none 7 = .error "network down" ∧
    handleGetChapters2 cFailCh 7 = .error "network down" ∧
    (handleGetIssues2 cFailI none none 7).items = [] ∧
    (handleGetIssues2 cFailI none none 7).metadata.error = some "network down" ∧
    (handleGetContributors2 id cFailC 7).items = [] ∧
    (handleGetContributors2 id cFailC 7).metadata.error = none ∧
    (handleGetContributors2 id cFailC 7).metadata.requestsMade = 0 :=
  upstream_failure_envelopes "network down" 7 id cFailP cFailCh cFailC cFailI
    (by decide) (fun _ _ => rfl) (fun _ _ => rfl) (fun _ _ => rfl) (fun _ _ => rfl)

/-- Claim C2 counterexample: the HTTP projects aggregation performs no
deduplication — with limit 101 over `c2stub` the result holds 101 records
and the records at positions 0 and 100 share the canonical url `u`. -/
theorem projects_duplicate_url_counterexample :
    ((exceptItems (handleGetProjects2 c2stub none 101)).map ProjectRec.url).length = 101 ∧
    ((exceptItems (handleGetProjects2 c2stub none 101)).map ProjectRec.url)[0]? = some "u" ∧
    ((exceptItems (handleGetProjects2 c2stub none 101)).map ProjectRec.url)[100]? = some "u" := by
  exact ⟨by decide, by decide, by decide⟩

theorem dedupInsert_nodup (acc : List ContributorRec1) (c : ContributorRec1)
    (h : (acc.map ContributorRec1.url).Nodup) :
    ((dedupInsert acc c).map ContributorRec1.url).Nodup := by
  unfold dedupInsert
  by_cases hany : acc.any (fun x => x.url = c.url) = true
  · simpa [hany] using h
  · simp only [hany, Bool.false_eq_true, if_false, ite_false, List.map_append]
    rw [List.nodup_append]
    refine ⟨h, List.nodup_singleton _, ?_⟩
    intro u hu hu2
    rcases List.mem_map.mp hu with ⟨x, hx, hxu⟩
    rcases List.mem_singleton.mp hu2 with rfl
    exact hany (List.any_eq_true.mpr ⟨x, hx, by simp [hxu]⟩)

theorem dedupFold_nodup (cs : List ContributorRec1) :
    ∀ acc, (acc.map ContributorRec1.url).Nodup →
      ((dedupFold acc cs).map ContributorRec1.url).Nodup := by
  induction cs with
  | nil => intro acc h; exact h
  | cons c cs ih =>
    intro acc h
    exact ih (dedupInsert acc c) (dedupInsert_nodup acc c h)

theorem contribLoop1_nodup (fetch : Fetcher1 RawContributor) (limit page : Nat) :
    ∀ (fuel i : Nat) (st : LoopState1), (st.unique.map ContributorRec1.url).Nodup →
      (((contribLoop1 fetch limit page i fuel st).unique).map ContributorRec1.url).Nodup := by
  intro fuel
  induction fuel with
  | zero => intro i st h; simpa [contribLoop1] using h
  | succ n ih =>
    intro i st h
    simp only [contribLoop1]
    cases hf : fetch (page + i) (min 50 (limit - i * 50)) with
    | error e => simpa using h
    | ok resp =>
      simp only
      by_cases hemp : (itemsOfSdk resp).isEmpty
      · simpa [hemp] using h
      · simp only [hemp, Bool.false_eq_true, if_false, ite_false]
        have hded := dedupFold_nodup ((itemsOfSdk resp).map normalizeContributor1) st.unique h
        by_cases hl : limit ≤ (dedupFold st.unique ((itemsOfSdk resp).map normalizeContributor1)).length
        · simpa [hl] using hded
        · by_cases hs : ((itemsOfSdk resp).map normalizeContributor1).length < min 50 (limit - i * 50)
          · have hcond : (itemsOfSdk resp).length < 50 ∧ (itemsOfSdk resp).length < limit - i * 50 := by
              rw [List.length_map] at hs
              exact lt_min_iff.mp hs
            simpa [hl, hcond] using hded
          · have hcond : ¬((itemsOfSdk resp).length < 50 ∧ (itemsOfSdk resp).length < limit - i * 50) := by
              rw [List.length_map] at hs
              exact fun hc => hs (lt_min_iff.mpr hc)
            simpa [hl, hcond] using ih (i + 1) _ hded

/-- Claim C2 (amended): only the stdio contributors aggregator (the
`limit > 50` path) deduplicates: its result never holds two records with the
same canonical url, and an already-present url is silently dropped (the
first occurrence wins); the HTTP-variant aggregation loops do not
deduplicate at all. -/
theorem contributors_dedup_by_url :
    (∀ (fetch : Fetcher1 RawContributor) (limit page : Nat), 50 < limit →
      (((handleGetContributors1 fetch limit page).contributors).map ContributorRec1.url).Nodup) ∧
    (∀ (acc : List ContributorRec1) (c : ContributorRec1),
      acc.any (fun x => x.url = c.url) = true → dedupInsert acc c = acc) := by
  constructor
  · intro fetch limit page hlim
    have hnot : ¬ limit ≤ 50 := by omega
    simp only [handleGetContributors1, hnot, if_false, ite_false]
    have hn := contribLoop1_nodup fetch limit page (jsCeilDiv limit 50) 0 ⟨[], 0, []⟩ (by simp)
    rw [List.map_take]
    exact List.Nodup.sublist (List.take_sublist _ _) hn
  · intro acc c h
    unfold dedupInsert
    rw [if_pos h]

/-- Witness for the amended claim C2 at a concrete stub that serves the same
record on every page. -/
theorem contributors_dedup_by_url_witness :
    (((handleGetContributors1 c2wStub 60 1).contributors).map ContributorRec1.url).Nodup ∧
    dedupInsert [normalizeContributor1 rawContribEmpty] (normalizeContributor1 rawContribEmpty)
      = [normalizeContributor1 rawContribEmpty] :=
  ⟨contributors_dedup_by_url.1 c2wStub 60 1 (by decide),
   contributors_dedup_by_url.2 _ _ (by decide)⟩

theorem jsCeilDiv_bounds (a b : Nat) (ha : 1 ≤ a) (hb : 1 ≤ b) :
    b * (jsCeilDiv a b - 1) < a ∧ a ≤ b * jsCeilDiv a b := by
  have hdm := Nat.div_add_mod (a + b - 1) b
  have hmlt : (a + b - 1) % b < b := Nat.mod_lt _ (by omega)
  have hq1 : 1 ≤ jsCeilDiv a b := by
    unfold jsCeilDiv
    exact (Nat.le_div_iff_mul_le (by omega)).mpr (by omega)
  obtain ⟨q', hq'⟩ : ∃ q', jsCeilDiv a b = q' + 1 := ⟨jsCeilDiv a b - 1, by omega⟩
  have hdm' : b * (q' + 1) + (a + b - 1) % b = a + b - 1 := by
    unfold jsCeilDiv at hq'
    rw [← hq']
    exact hdm
  rw [hq']
  have hmul : b * (q' + 1) = b * q' + b := by ring
  rw [hmul] at hdm'
  constructor
  · simp only [Nat.add_sub_cancel]
    omega
  · rw [hmul]
    omega

/-- Under an unlimited upstream supply — every call answers exactly the
requested page size and signals `hasNext: true` — the HTTP page loop with a
budget just covering the remaining need collects `min (len + ps*(fuel+1))
limit` items in exactly `fuel + 1` successful calls. -/
theorem httpLoopGo_unlimited {α : Type} (fetch : Fetcher α) (limit ps : Nat)
    (hf : ∀ p s, ∃ resp, fetch p s = .ok resp ∧ (itemsOfNest resp).length = s ∧
      resp.hasNext = some true) :
    ∀ (fuel page : Nat) (st : LoopState α),
      st.collected.length + ps * fuel < limit →
      ∃ st', httpLoopGo fetch limit ps page (fuel + 1) st = ⟨st', none⟩ ∧
        st'.collected.length = min (st.collected.length + ps * (fuel + 1)) limit ∧
        st'.requestsMade = st.requestsMade + (fuel + 1) := by
  intro fuel
  induction fuel with
  | zero =>
    intro page st hlt
    rw [Nat.mul_zero, Nat.add_zero] at hlt
    obtain ⟨resp, hfe, hlen, hnext⟩ := hf page (min ps (limit - st.collected.length))
    refine ⟨⟨st.collected ++ itemsOfNest resp, jsOrNat resp.totalCount st.totalCount,
      jsTruthy resp.hasNext, st.requestsMade + 1,
      st.calls ++ [(page, min ps (limit - st.collected.length))]⟩, ?_, ?_, ?_⟩
    · simp only [httpLoopGo, hfe]
      split
      · rfl
      · split
        · rfl
        · rfl
    · simp only [List.length_append, hlen]
      omega
    · rfl
  | succ n ih =>
    intro page st hlt
    obtain ⟨resp, hfe, hlen, hnext⟩ := hf page (min ps (limit - st.collected.length))
    have hmuls : ps * (n + 1) = ps * n + ps := by ring
    have hcps : min ps (limit - st.collected.length) = ps := by omega
    have hlen' : (itemsOfNest resp).length = ps := by rw [hlen, hcps]
    have hnobreak : ¬ limit ≤ (st.collected ++ itemsOfNest resp).length := by
      rw [List.length_append, hlen']
      omega
    have hstep : httpLoopGo fetch limit ps page (n + 1 + 1) st
        = httpLoopGo fetch limit ps (page + 1) (n + 1)
          ⟨st.collected ++ itemsOfNest resp, jsOrNat resp.totalCount st.totalCount,
            jsTruthy resp.hasNext, st.requestsMade + 1,
            st.calls ++ [(page, min ps (limit - st.collected.length))]⟩ := by
      simp only [httpLoopGo, hfe]
      rw [if_neg hnobreak, if_pos (by rw [hnext]; rfl)]
    have hIH : (st.collected ++ itemsOfNest resp).length + ps * n < limit := by
      rw [List.length_append, hlen']
      omega
    obtain ⟨st', hrun, hl2, hr2⟩ := ih (page + 1)
      ⟨st.collected ++ itemsOfNest resp, jsOrNat resp.totalCount st.totalCount,
        jsTruthy resp.hasNext, st.requestsMade + 1,
        st.calls ++ [(page, min ps (limit - st.collected.length))]⟩ hIH
    refine ⟨st', by rw [hstep]; exact hrun, ?_, ?_⟩
    · rw [hl2]
      simp only [List.length_append, hlen']
      have : st.collected.length + ps + ps * (n + 1) = st.collected.length + ps * (n + 1 + 1) := by
        ring
      rw [this]
    · rw [hr2]
      dsimp only
      omega

/-- Inserting a batch whose urls are fresh (disjoint from the accumulator,
no duplicates inside the batch) into the dedup map is a plain append. -/
theorem dedupFold_disjoint_append (cs : List ContributorRec1) :
    ∀ acc, (∀ c ∈ cs, ∀ x ∈ acc, x.url ≠ c.url) →
      (cs.map ContributorRec1.url).Nodup →
      dedupFold acc cs = acc ++ cs := by
  induction cs with
  | nil => intro acc _ _; simp [dedupFold]
  | cons c cs ih =>
    intro acc hdis hnd
    have hnotany : ¬ (acc.any (fun x => x.url = c.url) = true) := by
      intro h
      rcases List.any_eq_true.mp h with ⟨x, hx, hxe⟩
      exact hdis c (List.mem_cons_self _ _) x hx (of_decide_eq_true hxe)
    have hins : dedupInsert acc c = acc ++ [c] := by
      unfold dedupInsert
      rw [if_neg hnotany]
    have hrest : dedupFold (acc ++ [c]) cs = (acc ++ [c]) ++ cs := by
      apply ih
      · intro c' hc' x hx hurl
        rcases List.mem_append.mp hx with hxa | hxc
        · exact hdis c' (List.mem_cons_of_mem _ hc') x hxa hurl
        · rcases List.mem_singleton.mp hxc with rfl
          rw [List.map_cons, List.nodup_cons] at hnd
          exact hnd.1 (hurl ▸ List.mem_map_of_mem ContributorRec1.url hc')
      · rw [List.map_cons, List.nodup_cons] at hnd
        exact hnd.2
    calc dedupFold acc (c :: cs) = dedupFold (dedupInsert acc c) cs := rfl
      _ = dedupFold (acc ++ [c]) cs := by rw [hins]
      _ = (acc ++ [c]) ++ cs := hrest
      _ = acc ++ c :: cs := by simp

/-- One unfolding step of the stdio contributors loop, spelled out so that
proofs can rewrite exactly one iteration. -/
theorem contribLoop1_succ (fetch : Fetcher1 RawContributor) (limit page i fuel : Nat)
    (st : LoopState1) :
    contribLoop1 fetch limit page i (fuel + 1) st =
      (match fetch (page + i) (min 50 (limit - i * 50)) with
       | .error _ =>
         { st with calls := st.calls ++ [(page + i, min 50 (limit - i * 50))] }
       | .ok resp =>
         if (itemsOfSdk resp).isEmpty then
           { st with requestsMade := st.requestsMade + 1
                   , calls := st.calls ++ [(page + i, min 50 (limit - i * 50))] }
         else
           if limit ≤ (dedupFold st.unique ((itemsOfSdk resp).map normalizeContributor1)).length then
             ⟨dedupFold st.unique ((itemsOfSdk resp).map normalizeContributor1),
              st.requestsMade + 1, st.calls ++ [(page + i, min 50 (limit - i * 50))]⟩
           else if ((itemsOfSdk resp).map normalizeContributor1).length < min 50 (limit - i * 50) then
             ⟨dedupFold st.unique ((itemsOfSdk resp).map normalizeContributor1),
              st.requestsMade + 1, st.calls ++ [(page + i, min 50 (limit - i * 50))]⟩
           else
             contribLoop1 fetch limit page (i + 1) fuel
               ⟨dedupFold st.unique ((itemsOfSdk resp).map normalizeContributor1),
                st.requestsMade + 1, st.calls ++ [(page + i, min 50 (limit - i * 50))]⟩) := by
  rfl

/-- Under an unlimited distinct supply, the stdio contributors loop with a
budget just covering the remaining need ends with exactly `limit` unique
records after `fuel + 1` requests. -/
theorem contribLoop1_unlimited
    (fetch : Fetcher1 RawContributor) (pages : Nat → Nat → List RawContributor)
    (limit page : Nat)
    (hfp : ∀ p s, ∃ resp, fetch p s = .ok resp ∧ itemsOfSdk resp = pages p s)
    (hlenp : ∀ p s, (pages p s).length = s)
    (hnd : ∀ p s, ((pages p s).map (fun c => (normalizeContributor1 c).url)).Nodup)
    (hdisj : ∀ p s q t, p ≠ q →
      ∀ u, u ∈ (pages p s).map (fun c => (normalizeContributor1 c).url) →
        u ∉ (pages q t).map (fun c => (normalizeContributor1 c).url)) :
    ∀ (fuel i : Nat) (st : LoopState1),
      st.unique.length = 50 * i →
      (∀ u ∈ st.unique.map ContributorRec1.url, ∃ j, j < i ∧
        u ∈ (pages (page + j) (min 50 (limit - j * 50))).map
          (fun c => (normalizeContributor1 c).url)) →
      50 * (i + fuel) < limit →
      limit ≤ 50 * (i + fuel + 1) →
      (contribLoop1 fetch limit page i (fuel + 1) st).unique.length = limit ∧
      (contribLoop1 fetch limit page i (fuel + 1) st).requestsMade
        = st.requestsMade + (fuel + 1) := by
  intro fuel
  induction fuel with
  | zero =>
    intro i st hul hmem hlo hhi
    obtain ⟨resp, hfe, hitems⟩ := hfp (page + i) (min 50 (limit - i * 50))
    have hcl : min 50 (limit - i * 50) = limit - 50 * i := by omega
    have hplen : (pages (page + i) (min 50 (limit - i * 50))).length = limit - 50 * i := by
      rw [hlenp, hcl]
    have hne : ¬ (itemsOfSdk resp).isEmpty = true := by
      rw [hitems, List.isEmpty_iff]
      intro hnil
      rw [hnil] at hplen
      simp at hplen
      omega
    have hmm : ((itemsOfSdk resp).map normalizeContributor1).map ContributorRec1.url
        = (pages (page + i) (min 50 (limit - i * 50))).map
            (fun c => (normalizeContributor1 c).url) := by
      rw [hitems, List.map_map]
      rfl
    have hfold : dedupFold st.unique ((itemsOfSdk resp).map normalizeContributor1)
        = st.unique ++ (itemsOfSdk resp).map normalizeContributor1 := by
      apply dedupFold_disjoint_append
      · intro c hc x hx hurl
        have hcu : c.url ∈ (pages (page + i) (min 50 (limit - i * 50))).map
            (fun c => (normalizeContributor1 c).url) := by
          rw [← hmm]
          exact List.mem_map_of_mem ContributorRec1.url hc
        obtain ⟨j, hj, hju⟩ := hmem x.url (List.mem_map_of_mem ContributorRec1.url hx)
        have hne' : page + j ≠ page + i := by omega
        exact hdisj (page + j) (min 50 (limit - j * 50)) (page + i)
          (min 50 (limit - i * 50)) hne' x.url hju (hurl ▸ hcu)
      · rw [hmm]
        exact hnd _ _
    have hlen3 : (dedupFold st.unique ((itemsOfSdk resp).map normalizeContributor1)).length
        = limit := by
      rw [hfold, List.length_append, List.length_map, hitems, hplen, hul]
      omega
    have hbreak : limit ≤
        (dedupFold st.unique ((itemsOfSdk resp).map normalizeContributor1)).length := by
      omega
    rw [contribLoop1_succ]
    simp only [hfe]
    rw [if_neg hne, if_pos hbreak]
    exact ⟨hlen3, rfl⟩
  | succ n ih =>
    intro i st hul hmem hlo hhi
    obtain ⟨resp, hfe, hitems⟩ := hfp (page + i) (min 50 (limit - i * 50))
    have hmul : 50 * (i + (n + 1)) = 50 * i + 50 * (n + 1) := by ring
    have hmul2 : (50 : Nat) * (n + 1) = 50 * n + 50 := by ring
    have hcl : min 50 (limit - i * 50) = 50 := by omega
    have hplen : (pages (page + i) (min 50 (limit - i * 50))).length = 50 := by
      rw [hlenp, hcl]
    have hne : ¬ (itemsOfSdk resp).isEmpty = true := by
      rw [hitems, List.isEmpty_iff]
      intro hnil
      rw [hnil] at hplen
      simp at hplen
    have hmm : ((itemsOfSdk resp).map normalizeContributor1).map ContributorRec1.url
        = (pages (page + i) (min 50 (limit - i * 50))).map
            (fun c => (normalizeContributor1 c).url) := by
      rw [hitems, List.map_map]
      rfl
    have hfold : dedupFold st.unique ((itemsOfSdk resp).map normalizeContributor1)
        = st.unique ++ (itemsOfSdk resp).map normalizeContributor1 := by
      apply dedupFold_disjoint_append
      · intro c hc x hx hurl
        have hcu : c.url ∈ (pages (page + i) (min 50 (limit - i * 50))).map
            (fun c => (normalizeContributor1 c).url) := by
          rw [← hmm]
          exact List.mem_map_of_mem ContributorRec1.url hc
        obtain ⟨j, hj, hju⟩ := hmem x.url (List.mem_map_of_mem ContributorRec1.url hx)
        have hne' : page + j ≠ page + i := by omega
        exact hdisj (page + j) (min 50 (limit - j * 50)) (page + i)
          (min 50 (limit - i * 50)) hne' x.url hju (hurl ▸ hcu)
      · rw [hmm]
        exact hnd _ _
    have hlen3 : (dedupFold st.unique ((itemsOfSdk resp).map normalizeContributor1)).length
        = 50 * (i + 1) := by
      rw [hfold, List.length_append, List.length_map, hitems, hplen, hul]
      ring
    have hnobreak : ¬ limit ≤
        (dedupFold st.unique ((itemsOfSdk resp).map normalizeContributor1)).length := by
      rw [hlen3]
      omega
    have hnoshort : ¬ ((itemsOfSdk resp).map normalizeContributor1).length
        < min 50 (limit - i * 50) := by
      rw [List.length_map, hitems, hplen, hcl]
      omega
    have hmem' : ∀ u ∈ (dedupFold st.unique
        ((itemsOfSdk resp).map normalizeContributor1)).map ContributorRec1.url,
        ∃ j, j < i + 1 ∧
          u ∈ (pages (page + j) (min 50 (limit - j * 50))).map
            (fun c => (normalizeContributor1 c).url) := by
      intro u hu
      rw [hfold, List.map_append] at hu
      rcases List.mem_append.mp hu with hold | hnew
      · obtain ⟨j, hj, hju⟩ := hmem u hold
        exact ⟨j, by omega, hju⟩
      · exact ⟨i, by omega, hmm ▸ hnew⟩
    have hrec := ih (i + 1)
      ⟨dedupFold st.unique ((itemsOfSdk resp).map normalizeContributor1),
       st.requestsMade + 1, st.calls ++ [(page + i, min 50 (limit - i * 50))]⟩
      hlen3 hmem' (by omega) (by omega)
    rw [contribLoop1_succ]
    simp only [hfe]
    rw [if_neg hne, if_neg hnobreak, if_neg hnoshort]
    refine ⟨hrec.1, ?_⟩
    rw [hrec.2]
    dsimp only
    omega

theorem jsCeilDiv_self (b : Nat) (hb : 1 ≤ b) : jsCeilDiv b b = 1 := by
  obtain ⟨hb1, hb2⟩ := jsCeilDiv_bounds b b hb hb
  have hq1 : 1 ≤ jsCeilDiv b b := by
    by_contra h
    have h0 : jsCeilDiv b b = 0 := by omega
    rw [h0, Nat.mul_zero] at hb2
    omega
  have hq2 : jsCeilDiv b b - 1 = 0 := by
    by_contra h
    have h1' : 1 ≤ jsCeilDiv b b - 1 := by omega
    have := Nat.mul_le_mul_left b h1'
    rw [Nat.mul_one] at this
    omega
  omega

theorem httpLoopGo_one_ok {α : Type} (fetch : Fetcher α) (limit ps page : Nat)
    (st : LoopState α) (resp : NestResp α)
    (hfe : fetch page (min ps (limit - st.collected.length)) = .ok resp) :
    (httpLoopGo fetch limit ps page 1 st).state.requestsMade = st.requestsMade + 1 := by
  simp only [httpLoopGo, hfe]
  split
  · rfl
  · split
    · rfl
    · rfl

theorem itemsOfNest_mapResp {ρ α : Type} (f : ρ → α) (r : NestResp ρ) :
    itemsOfNest (mapResp f r) = (itemsOfNest r).map f := by
  cases hit : r.items <;> simp [mapResp, itemsOfNest, hit]

/-- Claim C3: the contributors aggregators issue exactly one upstream call
when the requested limit fits in one page (`maxPageSize` is 50 for the
stdio variant, 100 for the HTTP variant), and against an unlimited upstream
supply (every call answers exactly the requested page size, keeps signalling
more data, and — for the deduplicating stdio loop — serves globally distinct
urls) a larger limit costs exactly `ceil(limit / maxPageSize)` calls and
returns exactly `limit` records. -/
theorem aggregation_request_count :
    (∀ (fetch : Fetcher1 RawContributor) (limit page : Nat) (resp : SdkResp RawContributor),
      limit ≤ 50 → fetch page limit = .ok resp →
      (handleGetContributors1 fetch limit page).pagination.requestsMade = 1) ∧
    (∀ (fmt : String → String) (fetch : Fetcher RawContributor) (limit : Nat)
       (resp : NestResp RawContributor),
      1 ≤ limit → limit ≤ 100 → fetch 1 limit = .ok resp →
      (handleGetContributors2 fmt fetch limit).metadata.requestsMade = 1) ∧
    (∀ (fmt : String → String) (fetch : Fetcher RawContributor) (limit : Nat),
      100 < limit →
      (∀ p s, ∃ resp, fetch p s = .ok resp ∧ (itemsOfNest resp).length = s ∧
        resp.hasNext = some true) →
      (handleGetContributors2 fmt fetch limit).metadata.requestsMade = jsCeilDiv limit 100 ∧
      (handleGetContributors2 fmt fetch limit).metadata.returned = limit) ∧
    (∀ (fetch : Fetcher1 RawContributor) (pages : Nat → Nat → List RawContributor)
       (limit page : Nat),
      50 < limit →
      (∀ p s, ∃ resp, fetch p s = .ok resp ∧ itemsOfSdk resp = pages p s) →
      (∀ p s, (pages p s).length = s) →
      (∀ p s, ((pages p s).map (fun c => (normalizeContributor1 c).url)).Nodup) →
      (∀ p s q t, p ≠ q →
        ∀ u, u ∈ (pages p s).map (fun c => (normalizeContributor1 c).url) →
          u ∉ (pages q t).map (fun c => (normalizeContributor1 c).url)) →
      (handleGetContributors1 fetch limit page).pagination.requestsMade = jsCeilDiv limit 50 ∧
      (handleGetContributors1 fetch limit page).contributors.length = limit) := by
  refine ⟨?_, ?_, ?_, ?_⟩
  · intro fetch limit page resp hle hfe
    simp [handleGetContributors1, hle, hfe]
  · intro fmt fetch limit resp h1 h100 hfe
    have hps : min limit 100 = limit := by omega
    have hrun : httpRun (mapFetcher (normalizeContributor2 fmt) fetch) limit
        = httpLoopGo (mapFetcher (normalizeContributor2 fmt) fetch) limit limit 1 1
          ⟨[], 0, false, 0, []⟩ := by
      show httpLoopGo _ limit (min limit 100) 1 (jsCeilDiv limit (min limit 100)) _ = _
      rw [hps, jsCeilDiv_self limit h1]
    have h' : (mapFetcher (normalizeContributor2 fmt) fetch) 1
        (min limit (limit - (⟨[], 0, false, 0, []⟩ :
          LoopState ContributorRec2).collected.length))
        = .ok (mapResp (normalizeContributor2 fmt) resp) := by
      have hm : min limit (limit - (⟨[], 0, false, 0, []⟩ :
          LoopState ContributorRec2).collected.length) = limit := by
        simp
      rw [hm]
      simp [mapFetcher, hfe, Except.map]
    have hone := httpLoopGo_one_ok (mapFetcher (normalizeContributor2 fmt) fetch)
      limit limit 1 ⟨[], 0, false, 0, []⟩ (mapResp (normalizeContributor2 fmt) resp) h'
    show (mkOkEnvelope limit (httpRun (mapFetcher (normalizeContributor2 fmt) fetch)
      limit).state).metadata.requestsMade = 1
    simp only [mkOkEnvelope]
    rw [hrun]
    rw [hone]
  · intro fmt fetch limit h100 hf
    have hfN : ∀ p s, ∃ resp, (mapFetcher (normalizeContributor2 fmt) fetch) p s = .ok resp ∧
        (itemsOfNest resp).length = s ∧ resp.hasNext = some true := by
      intro p s
      obtain ⟨resp, hfe, hlen, hnext⟩ := hf p s
      refine ⟨mapResp (normalizeContributor2 fmt) resp, ?_, ?_, ?_⟩
      · simp [mapFetcher, hfe, Except.map]
      · rw [itemsOfNest_mapResp, List.length_map, hlen]
      · simp [mapResp, hnext]
    have h1 : 1 ≤ limit := by omega
    have hps : min limit 100 = 100 := by omega
    obtain ⟨hb1, hb2⟩ := jsCeilDiv_bounds limit 100 h1 (by omega)
    obtain ⟨fuel, hfuel⟩ : ∃ fuel, jsCeilDiv limit 100 = fuel + 1 :=
      ⟨jsCeilDiv limit 100 - 1, by omega⟩
    have hlt : ((⟨[], 0, false, 0, []⟩ :
        LoopState ContributorRec2).collected).length + 100 * fuel < limit := by
      simp only [List.length_nil, Nat.zero_add]
      omega
    obtain ⟨st', hrun', hlen', hrm'⟩ := httpLoopGo_unlimited
      (mapFetcher (normalizeContributor2 fmt) fetch) limit 100 hfN fuel 1
      ⟨[], 0, false, 0, []⟩ hlt
    have hrun : httpRun (mapFetcher (normalizeContributor2 fmt) fetch) limit = ⟨st', none⟩ := by
      show httpLoopGo _ limit (min limit 100) 1 (jsCeilDiv limit (min limit 100)) _ = _
      rw [hps, hfuel]
      exact hrun'
    have hcoll : st'.collected.length = limit := by
      rw [hlen']
      simp only [List.length_nil, Nat.zero_add]
      omega
    constructor
    · show (mkOkEnvelope limit (httpRun (mapFetcher (normalizeContributor2 fmt) fetch)
        limit).state).metadata.requestsMade = jsCeilDiv limit 100
      simp only [mkOkEnvelope]
      rw [hrun]
      rw [show (⟨st', none⟩ : RunOutcome ContributorRec2).state = st' from rfl, hrm']
      dsimp only
      omega
    · show (mkOkEnvelope limit (httpRun (mapFetcher (normalizeContributor2 fmt) fetch)
        limit).state).metadata.returned = limit
      simp only [mkOkEnvelope]
      rw [hrun]
      rw [show (⟨st', none⟩ : RunOutcome ContributorRec2).state = st' from rfl]
      rw [List.length_take, hcoll]
      omega
  · intro fetch pages limit page hlim hfp hlenp hnd hdisj
    have h1 : 1 ≤ limit := by omega
    obtain ⟨hb1, hb2⟩ := jsCeilDiv_bounds limit 50 h1 (by omega)
    obtain ⟨fuel, hfuel⟩ : ∃ fuel, jsCeilDiv limit 50 = fuel + 1 :=
      ⟨jsCeilDiv limit 50 - 1, by omega⟩
    have happ := contribLoop1_unlimited fetch pages limit page hfp hlenp hnd hdisj fuel 0
      ⟨[], 0, []⟩ (by simp) (by intro u hu; simp at hu) (by omega) (by omega)
    have hnot : ¬ limit ≤ 50 := by omega
    have hrun : contribRun1 fetch limit page
        = contribLoop1 fetch limit page 0 (fuel + 1) ⟨[], 0, []⟩ := by
      unfold contribRun1
      rw [hfuel]
    constructor
    · simp only [handleGetContributors1, hnot, if_false, ite_false]
      rw [hrun, happ.2]
      dsimp only
      omega
    · simp only [handleGetContributors1, hnot, if_false, ite_false]
      rw [hrun, List.length_take, happ.1]
      omega

theorem c3url_ne_empty (p j : Nat) : c3url p j ≠ "" :=
  str_ne_empty_of_data (by simp [c3url])

theorem c3norm_url (p j : Nat) : (normalizeContributor1 (c3raw p j)).url = c3url p j := by
  simp [normalizeContributor1, c3raw, jsOrStr, jsOrStrS, c3url_ne_empty p j]

theorem c3url_inj {p j q k : Nat} (h : c3url p j = c3url q k) : p = q ∧ j = k := by
  have hd : List.replicate (Nat.pair p j + 1) 'u' = List.replicate (Nat.pair q k + 1) 'u' :=
    congrArg String.data h
  have hlen := congrArg List.length hd
  simp only [List.length_replicate] at hlen
  have hpair : Nat.pair p j = Nat.pair q k := by omega
  exact Nat.pair_eq_pair.mp hpair

theorem c3pages_urls (p s : Nat) :
    (c3pages p s).map (fun c => (normalizeContributor1 c).url)
      = (List.range s).map (c3url p) := by
  simp only [c3pages, List.map_map]
  simp [Function.comp_def, c3norm_url]

/-- Witness for claim C3 at concrete stubs: one call for small limits; for
limit 120 the HTTP variant makes 2 calls and the stdio variant 3, both
returning exactly 120 records. -/
theorem aggregation_request_count_witness :
    (handleGetContributors1 c3stub1 10 1).pagination.requestsMade = 1 ∧
    (handleGetContributors2 id c3stub2 80).metadata.requestsMade = 1 ∧
    (handleGetContributors2 id c3stub2 120).metadata.requestsMade = 2 ∧
    (handleGetContributors2 id c3stub2 120).metadata.returned = 120 ∧
    (handleGetContributors1 c3stub1 120 1).pagination.requestsMade = 3 ∧
    (handleGetContributors1 c3stub1 120 1).contributors.length = 120 := by
  have h4 := aggregation_request_count.2.2.2 c3stub1 c3pages 120 1 (by decide)
    (fun p s => ⟨_, rfl, rfl⟩) (fun p s => by simp [c3pages])
    (fun p s => by
      rw [c3pages_urls]
      exact List.Nodup.map (fun j k h => (c3url_inj h).2) (List.nodup_range s))
    (fun p s q t hpq u hu hu2 => by
      rw [c3pages_urls] at hu hu2
      obtain ⟨j, _, hj⟩ := List.mem_map.mp hu
      obtain ⟨k, _, hk⟩ := List.mem_map.mp hu2
      exact hpq ((c3url_inj (hj.trans hk.symm)).1))
  have h3 := aggregation_request_count.2.2.1 id c3stub2 120 (by decide)
    (fun p s => ⟨_, rfl, by simp [itemsOfNest], rfl⟩)
  refine ⟨?_, ?_, ?_, ?_, ?_, ?_⟩
  · exact aggregation_request_count.1 c3stub1 10 1 _ (by decide) rfl
  · exact aggregation_request_count.2.1 id c3stub2 80 _ (by decide) (by decide) rfl
  · exact h3.1.trans (by decide)
  · exact h3.2
  · exact h4.1.trans (by decide)
  · exact h4.2
